import Mathlib

/-!
# Verification development for the `sum25-go-flutter-course` backends

The repository builds its dynamic SQL with the `Masterminds/squirrel` query
builder.  The first part of this file is an executable model of the part of
squirrel that the repository calls (immutable `SelectBuilder`, `Where`,
`OrderBy`, `Limit`, `Offset`, `Join`, `GroupBy`, `ToSql`, the `Eq` / `ILike` /
`Or` predicates and the `Dollar` placeholder format).  On top of that model
the file embeds the functions of `lab04/backend/repository/search_service.go`,
the row mappers and `Update` of `models/post.go`, `post_repository.go` and
`user_repository.go`, the validators of `models/post.go` and
`lab05/backend/userdomain/user.go`, and the task manager of
`lab01/backend/taskmanager/taskmanager.go`.

Conventions of the embedding:

* Go `string` is `String`; `len(s)` is the UTF-8 byte length `golang.len s`;
  Go `int` is `Int`; `uint64(x)` is `x % 2^64`, and the counter increment of
  the task manager wraps around at 64 bits (`golang.wrapInt64`).
* A Go slice whose nil-ness matters is a `golang.Slice`; a Go map is a
  partial function.
* A pointer field (`*int`, `*bool`) is an `Option`; `nil` is `none`.
* A Go `(T, error)` result is `Except String T`, the string being the
  error message; the row mappers, whose claims are about the value returned
  next to an error, return the pair of both values.
* Go `interface{}` arguments bound to a query are values of `squirrel.Value`.
-/

namespace strings

/-- Go `strings.ToUpper`.  ASCII-only strings take the byte-wise fast path
(`'a'..'z'` shifted to `'A'..'Z'`, unchanged when there is no lower-case
letter); any other string is mapped rune by rune with `unicode.ToUpper`,
whose case table is the parameter `upperRune`. -/
def ToUpper (upperRune : Char → Char) (s : String) : String :=
  if s.data.all (fun c => decide (c.toNat < 128)) then
    if s.data.any (fun c => decide ('a'.toNat ≤ c.toNat ∧ c.toNat ≤ 'z'.toNat)) then
      String.mk (s.data.map (fun c =>
        if 'a'.toNat ≤ c.toNat ∧ c.toNat ≤ 'z'.toNat then Char.ofNat (c.toNat - 32) else c))
    else s
  else String.mk (s.data.map upperRune)

end strings

namespace squirrel

/-- Values bound to placeholders (the `interface{}` arguments of a query). -/
inductive Value where
  | null : Value
  | int (n : Int) : Value
  | bool (b : Bool) : Value
  | str (s : String) : Value
  deriving DecidableEq, Repr

/-- The predicates and parts the repository hands to squirrel.
`part pred args` is squirrel's `part` / `wherePart` holding a string predicate;
`ILike key val` and `Eq key val` are the single-entry maps
`squirrel.ILike{key: val}` and `squirrel.Eq{key: val}`; `Or` is `squirrel.Or`. -/
inductive Sqlizer where
  | part (pred : String) (args : List Value) : Sqlizer
  | ILike (key : String) (val : Value) : Sqlizer
  | Eq (key : String) (val : Value) : Sqlizer
  | Or (children : List Sqlizer) : Sqlizer

/-- Squirrel's `sqlFalse`. -/
def sqlFalse : String := "(1=0)"

mutual
/-- `ToSql` of a part or predicate (`part.ToSql`, `Like.toSql "ILIKE"`,
`Eq.toSQL`, `Or.ToSql`). -/
def Sqlizer.ToSql : Sqlizer → Except String (String × List Value)
  | .part pred args => .ok (pred, args)
  | .ILike key val =>
    match val with
    | .null => .error "cannot use null with like operators"
    | v => .ok (key ++ " ILIKE ?", [v])
  | .Eq key val =>
    match val with
    | .null => .ok (key ++ " IS NULL", [])
    | v => .ok (key ++ " = ?", [v])
  | .Or children =>
    match children with
    | [] => .ok (sqlFalse, [])
    | c :: cs =>
      match conjParts (c :: cs) with
      | .error e => .error e
      | .ok (sqlParts, args) =>
        if sqlParts.length > 0 then
          .ok ("(" ++ " OR ".intercalate sqlParts ++ ")", args)
        else .ok ("", args)
/-- The loop of `conj.join`: the non-empty SQL of every child, in order,
with the children's arguments appended in the same order. -/
def conjParts : List Sqlizer → Except String (List String × List Value)
  | [] => .ok ([], [])
  | c :: cs =>
    match c.ToSql with
    | .error e => .error e
    | .ok (partSQL, partArgs) =>
      match conjParts cs with
      | .error e => .error e
      | .ok (sqlParts, args) =>
        if partSQL ≠ "" then .ok (partSQL :: sqlParts, partArgs ++ args)
        else .ok (sqlParts, args)
end

/-- Squirrel's `appendToSql`: writes the SQL of each part to the buffer `w`,
separated by `sep` (written before every part but the one at index 0), and
appends the parts' arguments; parts with empty SQL are skipped. -/
def appendToSql (sep : String) :
    List Sqlizer → Nat → String → List Value → Except String (String × List Value)
  | [], _, w, args => .ok (w, args)
  | p :: ps, i, w, args =>
    match p.ToSql with
    | .error e => .error e
    | .ok (partSql, partArgs) =>
      if partSql.length = 0 then appendToSql sep ps (i + 1) w args
      else
        appendToSql sep ps (i + 1)
          ((if i > 0 then w ++ sep else w) ++ partSql) (args ++ partArgs)

/-- Placeholder formats of squirrel used here. -/
inductive PlaceholderFormat where
  | Question : PlaceholderFormat
  | Dollar : PlaceholderFormat
  deriving DecidableEq, Repr

/-- Squirrel's `replacePositionalPlaceholders` on the characters of the query:
scanning from the left, `??` is an escaped `?` and any other `?` becomes `pfx`
followed by its 1-based index.  The counter `i` is the number of placeholders
replaced so far. -/
def replacePositionalPlaceholders (pfx : String) : List Char → Nat → List Char
  | [], _ => []
  | [c], i => if c = '?' then pfx.data ++ (Nat.repr (i + 1)).data else [c]
  | c :: d :: rest, i =>
    if c = '?' then
      if d = '?' then '?' :: replacePositionalPlaceholders pfx rest i
      else pfx.data ++ (Nat.repr (i + 1)).data ++
        replacePositionalPlaceholders pfx (d :: rest) (i + 1)
    else c :: replacePositionalPlaceholders pfx (d :: rest) i

/-- `PlaceholderFormat.ReplacePlaceholders`. -/
def PlaceholderFormat.ReplacePlaceholders (f : PlaceholderFormat) (sql : String) : String :=
  match f with
  | .Question => sql
  | .Dollar => String.mk (replacePositionalPlaceholders "$" sql.data 0)

/-- Squirrel's `selectData`, the state of a `SelectBuilder` (without the
runner). Builders are immutable values: every method returns a new one. -/
structure SelectBuilder where
  PlaceholderFormat : PlaceholderFormat
  Prefixes : List Sqlizer
  Options : List String
  Columns : List Sqlizer
  From : Option Sqlizer
  Joins : List Sqlizer
  WhereParts : List Sqlizer
  GroupBys : List String
  HavingParts : List Sqlizer
  OrderByParts : List Sqlizer
  Limit : String
  Offset : String
  Suffixes : List Sqlizer

/-- Squirrel's `StatementBuilderType`, reduced to the placeholder format. -/
structure StatementBuilderType where
  PlaceholderFormat : PlaceholderFormat

/-- Squirrel's `StatementBuilder` (question-mark placeholders). -/
def StatementBuilder : StatementBuilderType := ⟨.Question⟩

/-- `StatementBuilderType.PlaceholderFormat(f)`. -/
def StatementBuilderType.setPlaceholderFormat (_b : StatementBuilderType)
    (f : squirrel.PlaceholderFormat) : StatementBuilderType := ⟨f⟩

/-- `StatementBuilderType.Select(columns...)`. -/
def StatementBuilderType.Select (b : StatementBuilderType) (columns : List String) :
    SelectBuilder :=
  { PlaceholderFormat := b.PlaceholderFormat
    Prefixes := [], Options := []
    Columns := columns.map (fun c => Sqlizer.part c [])
    From := none, Joins := [], WhereParts := [], GroupBys := [], HavingParts := []
    OrderByParts := [], Limit := "", Offset := "", Suffixes := [] }

/-- `SelectBuilder.From(from)`. -/
def SelectBuilder.setFrom (b : SelectBuilder) (src : String) : SelectBuilder :=
  { b with From := some (Sqlizer.part src []) }

/-- `SelectBuilder.Where(pred)` for a predicate value (`Eq`, `ILike`, `Or`). -/
def SelectBuilder.Where (b : SelectBuilder) (pred : Sqlizer) : SelectBuilder :=
  { b with WhereParts := b.WhereParts ++ [pred] }

/-- `SelectBuilder.Where(pred, args...)` for a string predicate; an empty
string leaves the builder unchanged. -/
def SelectBuilder.WhereExpr (b : SelectBuilder) (pred : String) (args : List Value) :
    SelectBuilder :=
  if pred = "" then b else { b with WhereParts := b.WhereParts ++ [Sqlizer.part pred args] }

/-- `SelectBuilder.OrderBy(orderBy)` with one clause. -/
def SelectBuilder.OrderBy (b : SelectBuilder) (orderBy : String) : SelectBuilder :=
  { b with OrderByParts := b.OrderByParts ++ [Sqlizer.part orderBy []] }

/-- `SelectBuilder.Limit(limit)`: the limit is stored as its decimal text. -/
def SelectBuilder.setLimit (b : SelectBuilder) (limit : Nat) : SelectBuilder :=
  { b with Limit := Nat.repr limit }

/-- `SelectBuilder.Offset(offset)`: the offset is stored as its decimal text. -/
def SelectBuilder.setOffset (b : SelectBuilder) (offset : Nat) : SelectBuilder :=
  { b with Offset := Nat.repr offset }

/-- One step of `selectData.toSqlRaw`: when `parts` is non-empty write `kw` and
then the parts separated by `sep`. -/
def writeParts (kw sep : String) (parts : List Sqlizer) (w : String) (args : List Value) :
    Except String (String × List Value) :=
  if parts.length > 0 then appendToSql sep parts 0 (w ++ kw) args else .ok (w, args)

/-- Squirrel's `selectData.toSqlRaw`: the query text with `?` placeholders and
the bound arguments. -/
def SelectBuilder.toSqlRaw (d : SelectBuilder) : Except String (String × List Value) :=
  if d.Columns.length = 0 then
    .error "select statements must have at least one result column"
  else do
    let (w, args) ← writeParts "" " " d.Prefixes "" []
    let w := if d.Prefixes.length > 0 then w ++ " " else w
    let w := w ++ "SELECT "
    let w := if d.Options.length > 0 then w ++ " ".intercalate d.Options ++ " " else w
    let (w, args) ← writeParts "" ", " d.Columns w args
    let (w, args) ←
      match d.From with
      | none => Except.ok (w, args)
      | some f => appendToSql "" [f] 0 (w ++ " FROM ") args
    let (w, args) ← writeParts " " " " d.Joins w args
    let (w, args) ← writeParts " WHERE " " AND " d.WhereParts w args
    let w := if d.GroupBys.length > 0 then w ++ " GROUP BY " ++ ", ".intercalate d.GroupBys else w
    let (w, args) ← writeParts " HAVING " " AND " d.HavingParts w args
    let (w, args) ← writeParts " ORDER BY " ", " d.OrderByParts w args
    let w := if d.Limit.length > 0 then w ++ " LIMIT " ++ d.Limit else w
    let w := if d.Offset.length > 0 then w ++ " OFFSET " ++ d.Offset else w
    let (w, args) ← writeParts " " " " d.Suffixes w args
    return (w, args)

/-- Squirrel's `selectData.ToSql`: `toSqlRaw` followed by the placeholder
format's `ReplacePlaceholders`. -/
def SelectBuilder.ToSql (d : SelectBuilder) : Except String (String × List Value) :=
  match d.toSqlRaw with
  | .error e => .error e
  | .ok (sqlStr, args) => .ok (d.PlaceholderFormat.ReplacePlaceholders sqlStr, args)

/-- Parts `ps` compile, one by one, to the non-empty clauses `cl`. -/
def CompilesTo (ps : List Sqlizer) (cl : List (String × List Value)) : Prop :=
  List.Forall₂ (fun p c => p.ToSql = Except.ok c ∧ c.1 ≠ "") ps cl

end squirrel

namespace models

/-- The `Post` record of `models/post.go`; `time.Time` values are abstract
instants, represented by an integer. -/
structure Post where
  ID : Int
  UserID : Int
  Title : String
  Content : String
  Published : Bool
  CreatedAt : Int
  UpdatedAt : Int
  deriving DecidableEq, Repr

end models

namespace repository

open squirrel

/-- The `SearchFilters` struct of `search_service.go`. -/
structure SearchFilters where
  Query : String
  UserID : Option Int
  Published : Option Bool
  MinWordCount : Option Int
  Limit : Int
  Offset : Int
  OrderBy : String
  OrderDir : String
  deriving DecidableEq, Repr

/-- The store behind `*sql.DB` as `sqlscan.Select` uses it for posts: it runs a
query text with its arguments and either fails or yields the decoded rows. -/
structure DB where
  selectPosts : String → List Value → Except String (List models.Post)

/-- The `SearchService` struct. -/
structure SearchService where
  db : DB
  psql : StatementBuilderType

/-- `NewSearchService`: the statement builder uses `Dollar` placeholders. -/
def NewSearchService (db : DB) : SearchService :=
  { db := db, psql := StatementBuilder.setPlaceholderFormat PlaceholderFormat.Dollar }

/-- The Go conversion `uint64(x)` of an `int`. -/
def uint64 (x : Int) : Nat := (x % 2 ^ 64).toNat

/-- The word-count predicate text of `BuildDynamicQuery` (line 145). -/
def wordCountExpr : String :=
  " (LENGTH(content) - LENGTH(REPLACE(content,' ', '')) + 1) >= ? "

/-- The value of the local variable `qb` of `BuildDynamicQuery` when the
function reaches its `return` (lines 125-158): the builder it constructs. -/
def BuildDynamicQuery.qb (upperRune : Char → Char) (baseQuery : SelectBuilder)
    (filters : SearchFilters) : SelectBuilder :=
  let qb := baseQuery
  let qb :=
    if filters.Query ≠ "" then
      let searchTerm := "%" ++ filters.Query ++ "%"
      qb.Where (Sqlizer.Or [Sqlizer.ILike "title" (Value.str searchTerm),
        Sqlizer.ILike "content" (Value.str searchTerm)])
    else qb
  let qb :=
    match filters.UserID with
    | some userID => qb.Where (Sqlizer.Eq "user_id" (Value.int userID))
    | none => qb
  let qb :=
    match filters.Published with
    | some published => qb.Where (Sqlizer.Eq "published" (Value.bool published))
    | none => qb
  let qb :=
    match filters.MinWordCount with
    | some minWordCount => qb.WhereExpr wordCountExpr [Value.int minWordCount]
    | none => qb
  let qb :=
    if filters.OrderBy ≠ "" then
      let dir := if strings.ToUpper upperRune filters.OrderDir = "DESC" then "DESC" else "ASC"
      qb.OrderBy (filters.OrderBy ++ " " ++ dir)
    else qb
  (qb.setLimit (uint64 filters.Limit)).setOffset (uint64 filters.Offset)

/-- `SearchService.BuildDynamicQuery` (lines 122-161): builds `qb` from the
filters and then returns `baseQuery`. -/
def SearchService.BuildDynamicQuery (upperRune : Char → Char) (_s : SearchService)
    (baseQuery : SelectBuilder) (filters : SearchFilters) : SelectBuilder :=
  let _qb := BuildDynamicQuery.qb upperRune baseQuery filters
  baseQuery

/-- The base builder of `SearchPosts` (lines 44-45). -/
def SearchService.postsBase (s : SearchService) : SelectBuilder :=
  (s.psql.Select ["id", "user_id", "title", "content", "published", "created_at",
    "updated_at"]).setFrom "posts"

/-- The query `SearchPosts` compiles (lines 44-49): the result of `qb.ToSql()`. -/
def SearchService.SearchPosts.ToSql (upperRune : Char → Char) (s : SearchService)
    (filters : SearchFilters) : Except String (String × List Value) :=
  let qb := s.postsBase
  let qb := s.BuildDynamicQuery upperRune qb filters
  qb.ToSql

/-- `SearchService.SearchPosts` (lines 43-60). -/
def SearchService.SearchPosts (upperRune : Char → Char) (s : SearchService)
    (filters : SearchFilters) : Except String (List models.Post) :=
  match SearchService.SearchPosts.ToSql upperRune s filters with
  | .error err => .error err
  | .ok (sqlStr, args) =>
    match s.db.selectPosts sqlStr args with
    | .error err => .error err
    | .ok posts => .ok posts

/-- The query `SearchUsers` compiles (lines 64-78): the result of `qb.ToSql()`. -/
def SearchService.SearchUsers.ToSql (s : SearchService) (nameQuery : String) (limit : Int) :
    Except String (String × List Value) :=
  let qb := (s.psql.Select ["id", "name", "email", "created_at", "updated_at"]).setFrom "users"
  let qb :=
    if nameQuery ≠ "" then qb.Where (Sqlizer.ILike "name" (Value.str ("%" ++ nameQuery ++ "%")))
    else qb
  let qb := qb.OrderBy "name ASC"
  let qb := if limit > 0 then qb.setLimit (uint64 limit) else qb
  qb.ToSql

/-- The query compiled from the builder that `BuildDynamicQuery` constructs
over the base builder of `SearchPosts`. -/
def constructedToSql (upperRune : Char → Char) (s : SearchService) (filters : SearchFilters) :
    Except String (String × List Value) :=
  (BuildDynamicQuery.qb upperRune s.postsBase filters).ToSql

/-- The projection text of `SearchPosts`: the bare, unfiltered query. -/
def postsSelect : String :=
  "SELECT id, user_id, title, content, published, created_at, updated_at FROM posts"

/-- The predicates that the filters call for, in the order text search,
user id, published, word count, each as its SQL text with `?` placeholders and
its bound arguments.  Used to state what `BuildDynamicQuery.qb` compiles to. -/
def emittedClauses (filters : SearchFilters) : List (String × List Value) :=
  (if filters.Query ≠ "" then
    [("(title ILIKE ? OR content ILIKE ?)",
      [Value.str ("%" ++ filters.Query ++ "%"), Value.str ("%" ++ filters.Query ++ "%")])]
   else []) ++
  (match filters.UserID with
   | some userID => [("user_id = ?", [Value.int userID])]
   | none => []) ++
  (match filters.Published with
   | some published => [("published = ?", [Value.bool published])]
   | none => []) ++
  (match filters.MinWordCount with
   | some minWordCount => [(wordCountExpr, [Value.int minWordCount])]
   | none => [])

/-- The predicate values that the filters call for, in the same order as
`emittedClauses`, as they are handed to `Where`. -/
def emittedPredicates (filters : SearchFilters) : List Sqlizer :=
  (if filters.Query ≠ "" then
    [Sqlizer.Or [Sqlizer.ILike "title" (Value.str ("%" ++ filters.Query ++ "%")),
      Sqlizer.ILike "content" (Value.str ("%" ++ filters.Query ++ "%"))]]
   else []) ++
  (match filters.UserID with
   | some userID => [Sqlizer.Eq "user_id" (Value.int userID)]
   | none => []) ++
  (match filters.Published with
   | some published => [Sqlizer.Eq "published" (Value.bool published)]
   | none => []) ++
  (match filters.MinWordCount with
   | some minWordCount => [Sqlizer.part wordCountExpr [Value.int minWordCount]]
   | none => [])

/-- The order clause that the filters call for: none for an empty `OrderBy`,
else `OrderBy`, a space and the direction. -/
def orderClause (upperRune : Char → Char) (filters : SearchFilters) : List String :=
  if filters.OrderBy ≠ "" then
    [filters.OrderBy ++ " " ++
      (if strings.ToUpper upperRune filters.OrderDir = "DESC" then "DESC" else "ASC")]
  else []

/-- The text of one section of a query: nothing when there are no clauses,
else the keyword followed by the clauses separated by `sep`. -/
def sectionText (kw sep : String) (clauses : List String) : String :=
  if clauses.isEmpty then "" else kw ++ sep.intercalate clauses

/-- The order fields that the comment on `SearchFilters.OrderBy` (line 30)
lists. -/
def orderAllowList : List String := ["title", "created_at", "updated_at"]

/-- A store that answers every query with no rows. -/
def emptyStore : DB := { selectPosts := fun _ _ => Except.ok [] }

/-- The projection text of `SearchUsers`. -/
def usersSelect : String := "SELECT id, name, email, created_at, updated_at FROM users"

/-- A query text `text` contains the fragment `frag`. -/
def containsText (text frag : String) : Prop := frag.data <:+: text.data

instance (text frag : String) : Decidable (containsText text frag) := by
  unfold containsText; infer_instance

end repository

namespace squirrel

/-- `SelectBuilder.JoinClause(pred)` with a string predicate. -/
def SelectBuilder.JoinClause (b : SelectBuilder) (pred : String) : SelectBuilder :=
  { b with Joins := b.Joins ++ [Sqlizer.part pred []] }

/-- `SelectBuilder.Join(join)`. -/
def SelectBuilder.Join (b : SelectBuilder) (join : String) : SelectBuilder :=
  b.JoinClause ("JOIN " ++ join)

/-- `SelectBuilder.LeftJoin(join)`. -/
def SelectBuilder.LeftJoin (b : SelectBuilder) (join : String) : SelectBuilder :=
  b.JoinClause ("LEFT JOIN " ++ join)

/-- `SelectBuilder.GroupBy(groupBys...)`. -/
def SelectBuilder.GroupBy (b : SelectBuilder) (groupBys : List String) : SelectBuilder :=
  { b with GroupBys := b.GroupBys ++ groupBys }

end squirrel

namespace repository

open squirrel

/-- The builder of `GetPostStats` (lines 94-100). -/
def SearchService.postStatsBuilder (s : SearchService) : SelectBuilder :=
  ((s.psql.Select [
    "COUNT(p.id) as total_posts",
    "COUNT(CASE WHEN p.published = true THEN 1 END) as published_posts",
    "COUNT(DISTINCT p.user_id) as active_users",
    "AVG(LENGTH(p.content)) as avg_content_length"]).setFrom "posts p").Join
      "users u ON p.user_id = u.id"

/-- The query `GetPostStats` compiles (lines 94-102): the result of `qb.ToSql()`. -/
def SearchService.GetPostStats.ToSql (s : SearchService) : Except String (String × List Value) :=
  s.postStatsBuilder.ToSql

/-- The builder of `GetTopUsers` (lines 165-177). -/
def SearchService.topUsersBuilder (s : SearchService) (limit : Int) : SelectBuilder :=
  (((((s.psql.Select [
    "u.id",
    "u.name",
    "u.email",
    "COUNT(p.id) AS post_count",
    "COUNT(CASE WHEN p.published = true THEN 1 END) AS published_count",
    "MAX(p.created_at) AS last_post_date"]).setFrom "users u").LeftJoin
      "posts p ON u.id = p.user_id").GroupBy ["u.id", "u.name", "u.email"]).OrderBy
        "post_count DESC").setLimit (uint64 limit)

/-- The query `GetTopUsers` compiles (lines 165-179): the result of `qb.ToSql()`. -/
def SearchService.GetTopUsers.ToSql (s : SearchService) (limit : Int) :
    Except String (String × List Value) :=
  (s.topUsersBuilder limit).ToSql

/-- The text of the query of `GetPostStats`. -/
def postStatsText : String :=
  "SELECT COUNT(p.id) as total_posts, " ++
  "COUNT(CASE WHEN p.published = true THEN 1 END) as published_posts, " ++
  "COUNT(DISTINCT p.user_id) as active_users, " ++
  "AVG(LENGTH(p.content)) as avg_content_length " ++
  "FROM posts p JOIN users u ON p.user_id = u.id"

/-- The text of the query of `GetTopUsers` up to its LIMIT value. -/
def topUsersText : String :=
  "SELECT u.id, u.name, u.email, COUNT(p.id) AS post_count, " ++
  "COUNT(CASE WHEN p.published = true THEN 1 END) AS published_count, " ++
  "MAX(p.created_at) AS last_post_date " ++
  "FROM users u LEFT JOIN posts p ON u.id = p.user_id " ++
  "GROUP BY u.id, u.name, u.email ORDER BY post_count DESC LIMIT "

end repository

namespace golang

/-- A Go slice value: either `nil` or a (possibly empty) sequence of elements.
`Slice.mk []` is the empty non-nil slice `[]T{}`. -/
inductive Slice (α : Type) where
  | nil : Slice α
  | mk (elems : List α) : Slice α
  deriving DecidableEq, Repr

/-- Go `append(s, x)`: appending to a nil slice yields a non-nil slice. -/
def Slice.append {α : Type} : Slice α → α → Slice α
  | Slice.nil, x => Slice.mk [x]
  | Slice.mk elems, x => Slice.mk (elems ++ [x])

/-- Go `s == nil` for a slice. -/
def Slice.isNil {α : Type} : Slice α → Bool
  | Slice.nil => true
  | Slice.mk _ => false

/-- The elements of a slice, in order (none for `nil`). -/
def Slice.toList {α : Type} : Slice α → List α
  | Slice.nil => []
  | Slice.mk elems => elems

end golang

namespace sql

/-- A `*sql.Rows` result set as the row loops use it: `items` holds, for each
row that `Next` delivers, the outcome of `Scan` into the destination record;
`err` is what `rows.Err()` reports once `Next` has returned false. -/
structure Rows (α : Type) where
  items : List (Except String α)
  err : Option String

/-- The error `sql.ErrNoRows`. -/
def ErrNoRows : String := "sql: no rows in result set"

end sql

namespace models

open golang

/-- The loop `for rows.Next() { ...Scan...; xs = append(xs, x) }` shared by
`ScanPosts` and `UserRepository.GetAll`: it stops with the error of the first
failing `Scan`, else yields the slice `acc` extended by every row. -/
def scanLoop {α : Type} : List (Except String α) → Slice α → Except String (Slice α)
  | [], acc => Except.ok acc
  | Except.error err :: _, _ => Except.error err
  | Except.ok x :: rest, acc => scanLoop rest (acc.append x)

/-- `ScanPosts` of `models/post.go` (lines 122-150); the result is the pair
of the returned slice and the returned error. -/
def ScanPosts (rows : Option (sql.Rows Post)) : Slice Post × Option String :=
  match rows with
  | none => (Slice.nil, some sql.ErrNoRows)
  | some rows =>
    match scanLoop rows.items Slice.nil with
    | Except.error err => (Slice.nil, some err)
    | Except.ok posts =>
      match rows.err with
      | some err => (Slice.nil, some err)
      | none => (posts, none)

end models

namespace repository

open golang

/-- The store behind `*sql.DB` as `UserRepository` uses it: `Query` runs a
query text and either fails or yields a row set.  The record type `User` of
`models/user.go` is a parameter. -/
structure UserDB (User : Type) where
  Query : String → Except String (sql.Rows User)

/-- The `UserRepository` struct. -/
structure UserRepository (User : Type) where
  db : UserDB User

/-- The constant `userTable`. -/
def userTable : String := "users"

/-- The query text of `UserRepository.GetAll` (lines 105-107). -/
def getAllUsersQuery : String :=
  "\n\tSELECT id, name, email, created_at, updated_at\n\tFROM " ++ userTable ++
    " ORDER BY created_at"

/-- `UserRepository.GetAll` (lines 99-130); the result is the pair of the
returned slice and the returned error. -/
def UserRepository.GetAll {User : Type} (r : UserRepository User) :
    Slice User × Option String :=
  match r.db.Query getAllUsersQuery with
  | Except.error err => (Slice.nil, some err)
  | Except.ok rows =>
    match models.scanLoop rows.items (Slice.mk []) with
    | Except.error err => (Slice.nil, some err)
    | Except.ok users =>
      match rows.err with
      | some err => (Slice.nil, some err)
      | none => (users, none)

end repository

namespace repository

/-- A sample post row. -/
def samplePost : models.Post :=
  { ID := 1, UserID := 7, Title := "hello", Content := "", Published := false,
    CreatedAt := 0, UpdatedAt := 0 }

/-- A sample row set of posts whose second row fails to decode. -/
def brokenPostRows : sql.Rows models.Post :=
  { items := [Except.ok samplePost, Except.error "broken", Except.ok samplePost], err := none }

/-- A sample row set of users (numbered rows) whose iteration ends with an
error after two decoded rows. -/
def brokenUserRows : sql.Rows Nat :=
  { items := [Except.ok 1, Except.ok 2], err := some "broken" }

/-- A sample user repository whose store answers every query with
`brokenUserRows`. -/
def brokenUserRepo : UserRepository Nat :=
  { db := { Query := fun _ => Except.ok brokenUserRows } }

end repository

namespace models

/-- The `UpdatePostRequest` struct of `models/post.go`. -/
structure UpdatePostRequest where
  Title : Option String
  Content : Option String
  Published : Option Bool
  deriving DecidableEq, Repr

end models

namespace repository

open squirrel

/-- The store behind `*sql.DB` as `sqlscan.Get` uses it for one post: it runs
a query text with its arguments and either fails or yields the decoded row. -/
structure PostDB where
  getPost : String → List Value → Except String models.Post

/-- The `PostRepository` struct. -/
structure PostRepository where
  db : PostDB

/-- The query text of `PostRepository.GetByID` (lines 51-52). -/
def getByIDQuery : String :=
  "SELECT id, user_id, title, content, published, created_at, updated_at\nFROM posts WHERE id = $1"

/-- `PostRepository.GetByID` (lines 50-59). -/
def PostRepository.GetByID (r : PostRepository) (id : Int) : Except String models.Post :=
  r.db.getPost getByIDQuery [Value.int id]

/-- The values of `setClauses` and `args` of `PostRepository.Update` after the
three `if` blocks (lines 100-113). -/
def PostRepository.Update.clauses (req : models.UpdatePostRequest) :
    List String × List Value :=
  let setClauses := ["updated_at = NOW()"]
  let args : List Value := []
  let (setClauses, args) :=
    match req.Title with
    | some title =>
      (setClauses ++ ["title = $" ++ Nat.repr (args.length + 1)], args ++ [Value.str title])
    | none => (setClauses, args)
  let (setClauses, args) :=
    match req.Content with
    | some content =>
      (setClauses ++ ["content = $" ++ Nat.repr (args.length + 1)], args ++ [Value.str content])
    | none => (setClauses, args)
  let (setClauses, args) :=
    match req.Published with
    | some published =>
      (setClauses ++ ["published = $" ++ Nat.repr (args.length + 1)],
        args ++ [Value.bool published])
    | none => (setClauses, args)
  (setClauses, args)

/-- The query text and the arguments that `PostRepository.Update` hands to the
store when some field is set (lines 119-127). -/
def PostRepository.Update.query (id : Int) (req : models.UpdatePostRequest) :
    String × List Value :=
  let (setClauses, args) := PostRepository.Update.clauses req
  let args := args ++ [Value.int id]
  ("\nUPDATE posts SET " ++ ", ".intercalate setClauses ++ "\nWHERE id = $" ++
    Nat.repr args.length ++
    "\nRETURNING id, user_id, title, content, published, created_at, updated_at\n", args)

/-- `PostRepository.Update` (lines 98-136). -/
def PostRepository.Update (r : PostRepository) (id : Int) (req : models.UpdatePostRequest) :
    Except String models.Post :=
  if (PostRepository.Update.clauses req).2.length = 0 then r.GetByID id
  else
    let (query, args) := PostRepository.Update.query id req
    r.db.getPost query args

/-- The non-nil fields of an update request in the order title, content,
published, each as its column name and its value. -/
def presentFields (req : models.UpdatePostRequest) : List (String × Value) :=
  (match req.Title with
   | some title => [("title", Value.str title)]
   | none => []) ++
  (match req.Content with
   | some content => [("content", Value.str content)]
   | none => []) ++
  (match req.Published with
   | some published => [("published", Value.bool published)]
   | none => [])

/-- The value of a run of decimal digits. -/
def digitsValue (ds : List Char) : Nat :=
  ds.foldl (fun acc c => 10 * acc + (c.toNat - '0'.toNat)) 0

/-- The numbers of the `$n` placeholders of a query text, in order of
appearance. -/
def dollarPlaceholders : List Char → List Nat
  | [] => []
  | c :: rest =>
    if c = '$' ∧ (rest.takeWhile Char.isDigit) ≠ [] then
      digitsValue (rest.takeWhile Char.isDigit) :: dollarPlaceholders rest
    else dollarPlaceholders rest

end repository

namespace repository

/-- A sample update request: a new title and a new published flag. -/
def sampleUpdate : models.UpdatePostRequest :=
  { Title := some "New title", Content := none, Published := some true }

/-- A sample post repository whose store answers every query with
`samplePost`. -/
def samplePostRepo : PostRepository :=
  { db := { getPost := fun _ _ => Except.ok samplePost } }

end repository

namespace repository

/-- The update request that sets, with blank values, exactly the fields
selected by the three flags. -/
def blankUpdate (t c p : Bool) : models.UpdatePostRequest :=
  { Title := if t then some "" else none
    Content := if c then some "" else none
    Published := if p then some false else none }

end repository

namespace golang

/-- Go `len(s)` of a string: its number of bytes in UTF-8. -/
def len (s : String) : Nat := s.utf8ByteSize

end golang

namespace models

open golang

/-- The error `ErrInvalidTitle`. -/
def ErrInvalidTitle : String := "Invalid Title"

/-- The error `ErrInvalidContent`. -/
def ErrInvalidContent : String := "Invalid Content"

/-- The error `ErrInvalidUserId`. -/
def ErrInvalidUserId : String := "Invalid User ID"

/-- The `CreatePostRequest` struct of `models/post.go`. -/
structure CreatePostRequest where
  UserID : Int
  Title : String
  Content : String
  Published : Bool
  deriving DecidableEq, Repr

/-- `Post.Validate` (lines 42-61); `none` is the nil error. -/
def Post.Validate (p : Post) : Option String :=
  if p.Title = "" ∨ len p.Title < 5 then some ErrInvalidTitle
  else if p.Content = "" ∧ p.Published = true then some ErrInvalidContent
  else if p.UserID ≤ 0 then some ErrInvalidUserId
  else none

/-- `CreatePostRequest.Validate` (lines 64-83); `none` is the nil error. -/
def CreatePostRequest.Validate (req : CreatePostRequest) : Option String :=
  if req.Title = "" ∨ len req.Title < 5 then some ErrInvalidTitle
  else if req.Content = "" ∧ req.Published = true then some ErrInvalidContent
  else if req.UserID ≤ 0 then some ErrInvalidUserId
  else none

end models

namespace taskmanager

/-- The error `ErrTaskNotFound`. -/
def ErrTaskNotFound : String := "task not found"

/-- The error `ErrEmptyTitle`. -/
def ErrEmptyTitle : String := "title cannot be empty"

/-- The `Task` struct; `time.Time` values are abstract instants, represented
by an integer. -/
structure Task where
  ID : Int
  Title : String
  Description : String
  Done : Bool
  CreatedAt : Int
  deriving DecidableEq, Repr

/-- The `TaskManager` struct; the map `tasks` is a partial function from keys
to tasks. -/
structure TaskManager where
  tasks : Int → Option Task
  nextID : Int

/-- `NewTaskManager`. -/
def NewTaskManager : TaskManager := { tasks := fun _ => none, nextID := 1 }

/-- `TaskManager.UpdateTask` (lines 55-67): the manager after the call and the
returned error (`none` is nil). -/
def TaskManager.UpdateTask (tm : TaskManager) (id : Int) (title description : String)
    (done : Bool) : TaskManager × Option String :=
  if title = "" then (tm, some ErrEmptyTitle)
  else
    match tm.tasks id with
    | some task =>
      let task := { task with Title := title, Description := description, Done := done }
      ({ tm with tasks := fun k => if k = id then some task else tm.tasks k }, none)
    | none => (tm, some ErrTaskNotFound)

end taskmanager

namespace unicode

/-- Go `unicode.IsSpace`: the Latin-1 spaces `\t \n \v \f \r`, space, U+0085
and U+00A0, and the other characters with the White_Space property. -/
def IsSpace (c : Char) : Bool :=
  let n := c.toNat
  (9 ≤ n ∧ n ≤ 13) ∨ n = 0x20 ∨ n = 0x85 ∨ n = 0xA0 ∨ n = 0x1680 ∨
    (0x2000 ≤ n ∧ n ≤ 0x200A) ∨ n = 0x2028 ∨ n = 0x2029 ∨ n = 0x202F ∨ n = 0x205F ∨
    n = 0x3000

end unicode

namespace strings

/-- Go `strings.TrimSpace`: the string without its leading and trailing white
space (as `unicode.IsSpace` defines it). -/
def TrimSpace (s : String) : String :=
  String.mk ((s.data.dropWhile unicode.IsSpace).reverse.dropWhile unicode.IsSpace).reverse

/-- Go `strings.ToLower`.  ASCII-only strings take the byte-wise fast path
(`'A'..'Z'` shifted to `'a'..'z'`, unchanged when there is no upper-case
letter); any other string is mapped rune by rune with `unicode.ToLower`,
whose case table is the parameter `lowerRune`. -/
def ToLower (lowerRune : Char → Char) (s : String) : String :=
  if s.data.all (fun c => decide (c.toNat < 128)) then
    if s.data.any (fun c => decide ('A'.toNat ≤ c.toNat ∧ c.toNat ≤ 'Z'.toNat)) then
      String.mk (s.data.map (fun c =>
        if 'A'.toNat ≤ c.toNat ∧ c.toNat ≤ 'Z'.toNat then Char.ofNat (c.toNat + 32) else c))
    else s
  else String.mk (s.data.map lowerRune)

end strings

namespace userdomain

open golang

/-- The `User` struct of `userdomain/user.go`; `time.Time` values are abstract
instants, represented by an integer. -/
structure User where
  ID : Int
  Email : String
  Name : String
  Password : String
  CreatedAt : Int
  UpdatedAt : Int
  deriving DecidableEq, Repr

/-- The character class `[a-z]`. -/
def isLowerAZ (c : Char) : Bool := 'a'.toNat ≤ c.toNat ∧ c.toNat ≤ 'z'.toNat

/-- The character class `[A-Z]`. -/
def isUpperAZ (c : Char) : Bool := 'A'.toNat ≤ c.toNat ∧ c.toNat ≤ 'Z'.toNat

/-- The character class `[0-9]`. -/
def isDigit09 (c : Char) : Bool := '0'.toNat ≤ c.toNat ∧ c.toNat ≤ '9'.toNat

/-- The character class `[a-z0-9._%+-]`. -/
def isLocalChar (c : Char) : Bool :=
  isLowerAZ c || isDigit09 c || c = '.' || c = '_' || c = '%' || c = '+' || c = '-'

/-- The character class `[a-z0-9.-]`. -/
def isDomainChar (c : Char) : Bool :=
  isLowerAZ c || isDigit09 c || c = '.' || c = '-'

/-- Whether the whole text matches the pattern of `ValidateEmail`,
`^[a-z0-9._%+-]+@[a-z0-9.-]+\.[a-z]{2,}$`: a non-empty run of local
characters, `@`, then a domain whose part after its last `.` is at least two
letters `a-z` and whose part before that `.` is a non-empty run of domain
characters. -/
def matchesEmailPattern (email : String) : Bool :=
  let localPart := email.data.takeWhile isLocalChar
  match email.data.dropWhile isLocalChar with
  | '@' :: domain =>
    let tld := (domain.reverse.takeWhile (fun c => c ≠ '.')).reverse
    match domain.reverse.dropWhile (fun c => c ≠ '.') with
    | '.' :: revHost =>
      !localPart.isEmpty && !revHost.isEmpty && revHost.all isDomainChar &&
        tld.all isLowerAZ && decide (2 ≤ tld.length)
    | _ => false
  | _ => false

/-- `ValidateEmail` (lines 61-72); `none` is the nil error. -/
def ValidateEmail (email : String) : Option String :=
  let email := strings.TrimSpace email
  if email = "" then some "email must not be empty"
  else if !matchesEmailPattern email then some "invalid email format"
  else none

/-- `ValidateName` (lines 75-81); `none` is the nil error. -/
def ValidateName (name : String) : Option String :=
  let trimmed := strings.TrimSpace name
  if len trimmed < 2 ∨ len trimmed > 50 then
    some "name must be between 2 and 50 characters"
  else none

/-- `ValidatePassword` (lines 84-95); `none` is the nil error. -/
def ValidatePassword (password : String) : Option String :=
  if len password < 8 then some "password must be at least 8 characters long"
  else
    let upper := password.data.any isUpperAZ
    let lower := password.data.any isLowerAZ
    let digit := password.data.any isDigit09
    if !upper || !lower || !digit then
      some ("password must contain at least one uppercase letter, one lowercase letter, " ++
        "and one number")
    else none

/-- `NewUser` (lines 26-43); `now` is the value of `time.Now()` and
`lowerRune` the case table of `unicode.ToLower`. -/
def NewUser (lowerRune : Char → Char) (now : Int) (email name password : String) :
    Except String User :=
  let email := strings.ToLower lowerRune (strings.TrimSpace email)
  let name := strings.TrimSpace name
  match ValidateEmail email with
  | some err => Except.error err
  | none =>
    match ValidateName name with
    | some err => Except.error err
    | none =>
      match ValidatePassword password with
      | some err => Except.error err
      | none =>
        Except.ok { ID := 0, Email := email, Name := name, Password := password,
                    CreatedAt := now, UpdatedAt := now }

/-- A name of 26 Cyrillic letters (52 bytes in UTF-8). -/
def cyrillicName : String := "абвгдежзийклмнопрстуфхцчшщ"

end userdomain

namespace golang

/-- The result of signed 64-bit arithmetic: the value of `x` wrapped around
into the range of a Go `int` (`-2^63 .. 2^63 - 1`). -/
def wrapInt64 (x : Int) : Int := (x + 2 ^ 63) % 2 ^ 64 - 2 ^ 63

end golang

namespace models

/-- `CreatePostRequest.ToPost` (lines 86-95); `now` is the value of
`time.Now()`.  The fields that the composite literal leaves out (`ID`,
`Published`) have their zero values. -/
def CreatePostRequest.ToPost (now : Int) (req : CreatePostRequest) : Post :=
  { ID := 0
    UserID := req.UserID
    Title := req.Title
    Content := req.Content
    Published := false
    CreatedAt := now
    UpdatedAt := now }

end models

namespace repository

open squirrel

/-- `SearchService.GetTopUsers` (lines 164-189).  `Row` is the record type
`UserWithStats` and `selectRows` is `sqlscan.Select` over the store of the
service: it runs a query text with its arguments and either fails or yields
the decoded rows. -/
def SearchService.GetTopUsers {Row : Type}
    (selectRows : String → List Value → Except String (List Row)) (s : SearchService)
    (limit : Int) : Except String (List Row) :=
  match SearchService.GetTopUsers.ToSql s limit with
  | Except.error err => Except.error err
  | Except.ok (sqlStr, args) =>
    match selectRows sqlStr args with
    | Except.error err => Except.error err
    | Except.ok res => Except.ok res

end repository

namespace taskmanager

open golang

/-- `TaskManager.AddTask` (lines 38-52): the manager after the call and the
returned task or error; `now` is the value of `time.Now()`. -/
def TaskManager.AddTask (tm : TaskManager) (now : Int) (title description : String) :
    TaskManager × Except String Task :=
  if title = "" then (tm, Except.error ErrEmptyTitle)
  else
    let task : Task :=
      { ID := tm.nextID, Title := title, Description := description, Done := false,
        CreatedAt := now }
    ({ tasks := fun k => if k = tm.nextID then some task else tm.tasks k
       nextID := wrapInt64 (tm.nextID + 1) }, Except.ok task)

/-- `TaskManager.DeleteTask` (lines 70-76): the manager after the call and the
returned error (`none` is nil). -/
def TaskManager.DeleteTask (tm : TaskManager) (id : Int) : TaskManager × Option String :=
  match tm.tasks id with
  | some _ => ({ tm with tasks := fun k => if k = id then none else tm.tasks k }, none)
  | none => (tm, some ErrTaskNotFound)

/-- A call of one of the three mutating methods of the task manager. -/
inductive Op where
  | add (now : Int) (title description : String) : Op
  | update (id : Int) (title description : String) (done : Bool) : Op
  | delete (id : Int) : Op
  deriving DecidableEq, Repr

/-- The manager after one call. -/
def step (tm : TaskManager) : Op → TaskManager
  | Op.add now title description => (tm.AddTask now title description).1
  | Op.update id title description done => (tm.UpdateTask id title description done).1
  | Op.delete id => (tm.DeleteTask id).1

/-- The manager after a sequence of calls, in order. -/
def run (tm : TaskManager) (ops : List Op) : TaskManager := ops.foldl step tm

/-- The number of successful `AddTask` calls (those with a non-empty title)
in a sequence of calls. -/
def successfulAdds : List Op → Nat
  | [] => 0
  | Op.add _ title _ :: ops => (if title = "" then 0 else 1) + successfulAdds ops
  | _ :: ops => successfulAdds ops

/-- The calls that `n` times add a task and delete it again; the i-th task
added (counting from 0) gets the id `wrapInt64 (1 + i)`. -/
def churn : Nat → List Op
  | 0 => []
  | n + 1 => churn n ++ [Op.add 0 "t" "", Op.delete (wrapInt64 (1 + n))]

end taskmanager

namespace repository

/-- A `sqlscan.Select` that answers every query with no rows (rows are
numbered). -/
def selectNoRows : String → List squirrel.Value → Except String (List Nat) :=
  fun _ _ => Except.ok []

end repository

namespace taskmanager

/-- The invariant of the task manager after `n` successful `AddTask` calls:
the next id is `1 + n` and every stored task has its key as its `ID`, between
1 and the next id. -/
def Inv (tm : TaskManager) (n : Nat) : Prop :=
  tm.nextID = 1 + (n : Int) ∧
  ∀ k t, tm.tasks k = some t → t.ID = k ∧ 1 ≤ k ∧ k < tm.nextID

end taskmanager

namespace sql

end sql

namespace repository

open squirrel

/-- The decimal number that a query text ends with (0 when there is none). -/
def trailingNumber (text : String) : Nat :=
  digitsValue (text.data.reverse.takeWhile Char.isDigit).reverse

/-- A `sqlscan.Select` over a store that treats the LIMIT of a query as
SQLite does: an integer literal above `2^63 - 1` is read as a floating-point
value, which LIMIT rejects with `datatype mismatch`; any other query is
answered with no rows. -/
def selectCheckingLimit : String → List Value → Except String (List Nat) :=
  fun text _ =>
    if trailingNumber text > 2 ^ 63 - 1 then Except.error "datatype mismatch"
    else Except.ok []

end repository

namespace repository

end repository

/-! ## Lemmas on the query builder -/

namespace squirrel

theorem digitChar_ne_question (d : Nat) (h : d < 10) : Nat.digitChar d ≠ '?' := by
  interval_cases d <;> decide

theorem toDigitsCore_no_question (fuel : Nat) :
    ∀ (n : Nat) (ds : List Char), (∀ c ∈ ds, c ≠ '?') →
      ∀ c ∈ Nat.toDigitsCore 10 fuel n ds, c ≠ '?' := by
  induction fuel with
  | zero => intro n ds h; simpa [Nat.toDigitsCore] using h
  | succ fuel ih =>
    intro n ds h
    have hd : Nat.digitChar (n % 10) ≠ '?' := digitChar_ne_question _ (Nat.mod_lt _ (by decide))
    have h2 : ∀ c ∈ Nat.digitChar (n % 10) :: ds, c ≠ '?' := by
      intro c hc
      rcases List.mem_cons.mp hc with rfl | hc
      · exact hd
      · exact h c hc
    simp only [Nat.toDigitsCore]
    split
    · exact h2
    · exact ih _ _ h2

theorem toDigitsCore_ne_nil (fuel n : Nat) (ds : List Char) (h : ds ≠ [] ∨ 0 < fuel) :
    Nat.toDigitsCore 10 fuel n ds ≠ [] := by
  induction fuel generalizing n ds with
  | zero =>
    rcases h with h | h
    · simpa [Nat.toDigitsCore] using h
    · omega
  | succ fuel ih =>
    simp only [Nat.toDigitsCore]
    split
    · simp
    · exact ih _ _ (Or.inl (by simp))

theorem repr_no_question (n : Nat) : ∀ c ∈ (Nat.repr n).data, c ≠ '?' := by
  simpa [Nat.repr, Nat.toDigits, List.asString] using
    toDigitsCore_no_question (n + 1) n [] (by simp)

theorem repr_data_ne_nil (n : Nat) : (Nat.repr n).data ≠ [] := by
  simpa [Nat.repr, Nat.toDigits, List.asString] using
    toDigitsCore_ne_nil (n + 1) n [] (Or.inr (Nat.succ_pos n))

theorem repr_length_pos (n : Nat) : (Nat.repr n).length > 0 :=
  Nat.pos_of_ne_zero (fun h0 => repr_data_ne_nil n (List.length_eq_zero.mp h0))

theorem data_ne_nil_of_ne {s : String} (h : s ≠ "") : s.data ≠ [] := by
  intro hd
  apply h
  cases s with
  | mk d =>
    have hd2 : d = [] := hd
    subst hd2
    rfl

theorem length_ne_zero_of_ne {s : String} (h : s ≠ "") : ¬ s.length = 0 := by
  have h2 := data_ne_nil_of_ne h
  intro h0
  exact h2 (List.length_eq_zero.mp h0)

theorem intercalate_go_append (sep : String) (rest : List String) :
    ∀ a b : String, String.intercalate.go (a ++ b) sep rest =
      a ++ String.intercalate.go b sep rest := by
  induction rest with
  | nil => intro a b; simp [String.intercalate.go]
  | cons c rest ih =>
    intro a b
    simp only [String.intercalate.go]
    rw [String.append_assoc, String.append_assoc, ih, ← String.append_assoc]

theorem appendToSql_succ (sep : String) (ps : List Sqlizer) (cl : List (String × List Value))
    (h : CompilesTo ps cl) :
    ∀ (i : Nat) (w : String) (args : List Value),
      appendToSql sep ps (i + 1) w args =
        Except.ok (String.intercalate.go w sep (cl.map Prod.fst), args ++ cl.flatMap Prod.snd) := by
  induction h with
  | nil => intro i w args; simp [appendToSql, String.intercalate.go]
  | @cons p c ps cl hpc _ ih =>
    intro i w args
    obtain ⟨hp, hne⟩ := hpc
    obtain ⟨sql, a⟩ := c
    simp only [appendToSql, hp, length_ne_zero_of_ne hne, if_false, ih, List.map_cons,
      String.intercalate.go, List.flatMap_cons, List.append_assoc]
    simp

theorem writeParts_eq (kw sep : String) (ps : List Sqlizer) (cl : List (String × List Value))
    (h : CompilesTo ps cl) (w : String) (args : List Value) :
    writeParts kw sep ps w args =
      Except.ok (w ++ repository.sectionText kw sep (cl.map Prod.fst), args ++ cl.flatMap Prod.snd) := by
  cases h with
  | nil => simp [writeParts, repository.sectionText]
  | @cons p c ps cl hpc hrest =>
    obtain ⟨hp, hne⟩ := hpc
    obtain ⟨sql, a⟩ := c
    simp only [writeParts, List.length_cons, gt_iff_lt, Nat.zero_lt_succ, if_true, appendToSql,
      hp, length_ne_zero_of_ne hne, if_false, Nat.lt_irrefl, appendToSql_succ sep ps cl hrest,
      repository.sectionText, List.map_cons, List.isEmpty_cons, String.intercalate,
      List.flatMap_cons, List.append_assoc]
    rw [intercalate_go_append, String.append_assoc]
    simp

theorem posts_toSqlRaw (pf : PlaceholderFormat) (W O : List Sqlizer) (L Off : String) :
    SelectBuilder.toSqlRaw
      { PlaceholderFormat := pf, Prefixes := [], Options := [],
        Columns := ["id", "user_id", "title", "content", "published", "created_at",
          "updated_at"].map (fun c => Sqlizer.part c []),
        From := some (Sqlizer.part "posts" []), Joins := [], WhereParts := W, GroupBys := [],
        HavingParts := [], OrderByParts := O, Limit := L, Offset := Off, Suffixes := [] } =
      (do
        let (w, args) ← writeParts " WHERE " " AND " W repository.postsSelect []
        let (w, args) ← writeParts " ORDER BY " ", " O w args
        let w := if L.length > 0 then w ++ " LIMIT " ++ L else w
        let w := if Off.length > 0 then w ++ " OFFSET " ++ Off else w
        return (w, args)) := by
  rfl

theorem repr_not_mem (n : Nat) : '?' ∉ (Nat.repr n).data :=
  fun h => repr_no_question n '?' h rfl

end squirrel

namespace repository

open squirrel

set_option maxRecDepth 8000

theorem qb_eq (up : Char → Char) (base : SelectBuilder) (f : SearchFilters) :
    BuildDynamicQuery.qb up base f =
      { base with
        WhereParts := base.WhereParts ++ emittedPredicates f
        OrderByParts := base.OrderByParts ++ (orderClause up f).map (fun c => Sqlizer.part c [])
        Limit := Nat.repr (uint64 f.Limit)
        Offset := Nat.repr (uint64 f.Offset) } := by
  obtain ⟨q, u, p, m, l, o, ob, od⟩ := f
  by_cases hq : q = "" <;> cases u <;> cases p <;> cases m <;> by_cases hob : ob = "" <;>
    simp [BuildDynamicQuery.qb, emittedPredicates, orderClause, SelectBuilder.Where,
      SelectBuilder.WhereExpr, SelectBuilder.OrderBy, SelectBuilder.setLimit,
      SelectBuilder.setOffset, hq, hob, wordCountExpr]

theorem textSearch_toSql (t : String) :
    (Sqlizer.Or [Sqlizer.ILike "title" (Value.str t),
      Sqlizer.ILike "content" (Value.str t)]).ToSql =
      Except.ok ("(title ILIKE ? OR content ILIKE ?)", [Value.str t, Value.str t]) := by
  rfl

theorem emitted_compiles (f : SearchFilters) :
    CompilesTo (emittedPredicates f) (emittedClauses f) := by
  obtain ⟨q, u, p, m, l, o, ob, od⟩ := f
  by_cases hq : q = "" <;> cases u <;> cases p <;> cases m <;>
    simp [CompilesTo, emittedPredicates, emittedClauses, hq, wordCountExpr] <;>
    (try simp only [textSearch_toSql]) <;>
    simp [Sqlizer.ToSql]

theorem order_compiles (up : Char → Char) (f : SearchFilters) :
    CompilesTo ((orderClause up f).map (fun c => Sqlizer.part c []))
      ((orderClause up f).map (fun c => (c, []))) := by
  unfold orderClause
  split
  · have hne : ∀ d : String, f.OrderBy ++ " " ++ d ≠ "" := by
      intro d hd
      have h2 := congrArg String.data hd
      simp [String.data_append] at h2
    simp [CompilesTo, Sqlizer.ToSql, hne]
  · simp [CompilesTo]

/-- The text compiled from the builder that `BuildDynamicQuery` constructs:
the projection, the WHERE section, the ORDER BY section, LIMIT and OFFSET. -/
theorem constructed_toSqlRaw (up : Char → Char) (s : SearchService) (f : SearchFilters) :
    (BuildDynamicQuery.qb up s.postsBase f).toSqlRaw =
      Except.ok
        (postsSelect ++ sectionText " WHERE " " AND " ((emittedClauses f).map Prod.fst) ++
          sectionText " ORDER BY " ", " (orderClause up f) ++
          " LIMIT " ++ Nat.repr (uint64 f.Limit) ++ " OFFSET " ++ Nat.repr (uint64 f.Offset),
         (emittedClauses f).flatMap Prod.snd) := by
  rw [qb_eq]
  have h := posts_toSqlRaw s.psql.PlaceholderFormat (emittedPredicates f)
    ((orderClause up f).map (fun c => Sqlizer.part c [])) (Nat.repr (uint64 f.Limit))
    (Nat.repr (uint64 f.Offset))
  simp only [SearchService.postsBase, StatementBuilderType.Select, SelectBuilder.setFrom,
    List.nil_append] at h ⊢
  rw [h, writeParts_eq _ _ _ _ (emitted_compiles f)]
  simp only [bind, Except.bind, writeParts_eq _ _ _ _ (order_compiles up f), pure, Except.pure,
    repr_length_pos, if_true, List.map_map, List.nil_append]
  congr 2
  · congr 4
    simp [Function.comp_def]
  · simp [List.flatMap]

theorem users_toSqlRaw (pf : PlaceholderFormat) (n : String) (L : String) :
    SelectBuilder.toSqlRaw
      { PlaceholderFormat := pf, Prefixes := [], Options := [],
        Columns := ["id", "name", "email", "created_at", "updated_at"].map
          (fun c => Sqlizer.part c []),
        From := some (Sqlizer.part "users" []), Joins := [],
        WhereParts := [Sqlizer.ILike "name" (Value.str n)], GroupBys := [],
        HavingParts := [], OrderByParts := [Sqlizer.part "name ASC" []], Limit := L,
        Offset := "", Suffixes := [] } =
      Except.ok
        (if L.length > 0 then usersSelect ++ " WHERE name ILIKE ? ORDER BY name ASC" ++ " LIMIT " ++ L
          else usersSelect ++ " WHERE name ILIKE ? ORDER BY name ASC", [Value.str n]) := by
  rfl

theorem SearchUsers_toSql_eq (s : SearchService) (n : String) (limit : Int) (h : n ≠ "") :
    SearchService.SearchUsers.ToSql s n limit =
      Except.ok (s.psql.PlaceholderFormat.ReplacePlaceholders
        (usersSelect ++ " WHERE name ILIKE ? ORDER BY name ASC" ++
          (if limit > 0 then " LIMIT " ++ Nat.repr (uint64 limit) else "")),
        [Value.str ("%" ++ n ++ "%")]) := by
  by_cases hl : limit > 0
  · have hraw := users_toSqlRaw s.psql.PlaceholderFormat ("%" ++ n ++ "%")
      (Nat.repr (uint64 limit))
    simp only [repr_length_pos, if_true] at hraw
    simp only [SearchService.SearchUsers.ToSql, h, hl, ne_eq, not_false_eq_true, if_true,
      SelectBuilder.ToSql, StatementBuilderType.Select, SelectBuilder.setFrom,
      SelectBuilder.Where, SelectBuilder.OrderBy, SelectBuilder.setLimit, List.nil_append]
    rw [hraw]
    simp only [String.append_assoc]
  · have hraw := users_toSqlRaw s.psql.PlaceholderFormat ("%" ++ n ++ "%") ""
    simp only [SearchService.SearchUsers.ToSql, h, hl, ne_eq, not_false_eq_true, if_true,
      if_false, SelectBuilder.ToSql, StatementBuilderType.Select, SelectBuilder.setFrom,
      SelectBuilder.Where, SelectBuilder.OrderBy, List.nil_append]
    rw [hraw]
    simp

/-! ## The claims about `search_service.go` -/

/-- C1: `BuildDynamicQuery` returns the builder it was given, whatever the
filters are, and the query `SearchPosts` compiles is therefore the bare
projection over `posts` with an empty argument list. -/
theorem BuildDynamicQuery_returns_base (up : Char → Char) (s : SearchService)
    (base : SelectBuilder) (f : SearchFilters) :
    s.BuildDynamicQuery up base f = base ∧
    SearchService.SearchPosts.ToSql up s f =
      Except.ok ("SELECT id, user_id, title, content, published, created_at, updated_at FROM posts",
        []) := by
  refine ⟨rfl, ?_⟩
  obtain ⟨db, ⟨pf⟩⟩ := s
  cases pf <;> rfl

/-- C2 (evaluation at the failing input): with `OrderBy = "title"` and
`OrderDir = "down"` the builder that `BuildDynamicQuery` constructs compiles to
a text with `ORDER BY title ASC`, but the query `SearchPosts` compiles is the
bare projection, which has no `ORDER BY` at all. -/
theorem SearchPosts_order_dropped (up : Char → Char) (db : DB) :
    constructedToSql up (NewSearchService db)
        { Query := "", UserID := none, Published := none, MinWordCount := none,
          Limit := 10, Offset := 0, OrderBy := "title", OrderDir := "down" } =
      Except.ok (postsSelect ++ " ORDER BY title ASC LIMIT 10 OFFSET 0", []) ∧
    SearchService.SearchPosts.ToSql up (NewSearchService db)
        { Query := "", UserID := none, Published := none, MinWordCount := none,
          Limit := 10, Offset := 0, OrderBy := "title", OrderDir := "down" } =
      Except.ok (postsSelect, []) ∧
    ¬ containsText postsSelect "ORDER BY" := by
  refine ⟨rfl, rfl, ?_⟩
  decide

/-- C3 (evaluation at the failing input): with `Query = "golang"` the builder
that `BuildDynamicQuery` constructs compiles to the OR of two `ILIKE` clauses
bound to `%golang%`, but the query `SearchPosts` compiles is the bare
projection: no `WHERE` and no bound argument. -/
theorem SearchPosts_text_search_dropped (up : Char → Char) (db : DB) :
    constructedToSql up (NewSearchService db)
        { Query := "golang", UserID := none, Published := none, MinWordCount := none,
          Limit := 50, Offset := 0, OrderBy := "", OrderDir := "" } =
      Except.ok (postsSelect ++ " WHERE (title ILIKE $1 OR content ILIKE $2) LIMIT 50 OFFSET 0",
        [Value.str "%golang%", Value.str "%golang%"]) ∧
    SearchService.SearchPosts.ToSql up (NewSearchService db)
        { Query := "golang", UserID := none, Published := none, MinWordCount := none,
          Limit := 50, Offset := 0, OrderBy := "", OrderDir := "" } =
      Except.ok (postsSelect, []) ∧
    ¬ containsText postsSelect "WHERE" := by
  refine ⟨rfl, rfl, ?_⟩
  decide

/-- C4 (evaluation at the failing input): with `Limit = 10` and `Offset = 20`
the builder that `BuildDynamicQuery` constructs compiles to a text ending in
`LIMIT 10 OFFSET 20`, but the query `SearchPosts` compiles is the bare
projection, with neither `LIMIT` nor `OFFSET`. -/
theorem SearchPosts_pagination_dropped (up : Char → Char) (db : DB) :
    constructedToSql up (NewSearchService db)
        { Query := "", UserID := none, Published := none, MinWordCount := none,
          Limit := 10, Offset := 20, OrderBy := "", OrderDir := "" } =
      Except.ok (postsSelect ++ " LIMIT 10 OFFSET 20", []) ∧
    SearchService.SearchPosts.ToSql up (NewSearchService db)
        { Query := "", UserID := none, Published := none, MinWordCount := none,
          Limit := 10, Offset := 20, OrderBy := "", OrderDir := "" } =
      Except.ok (postsSelect, []) ∧
    ¬ containsText postsSelect "LIMIT" ∧ ¬ containsText postsSelect "OFFSET" := by
  refine ⟨rfl, rfl, ?_, ?_⟩ <;> decide

/-- C6: when `Query` is empty and `UserID`, `Published` and `MinWordCount` are
all nil, the builder that `BuildDynamicQuery` constructs has no predicate (its
text goes from the projection straight to ORDER BY / LIMIT / OFFSET), and the
query `SearchPosts` compiles contains neither `WHERE` nor `1=1`. -/
theorem no_predicate_without_filters (up : Char → Char) (s : SearchService) (f : SearchFilters)
    (hq : f.Query = "") (hu : f.UserID = none) (hp : f.Published = none)
    (hm : f.MinWordCount = none) :
    (BuildDynamicQuery.qb up s.postsBase f).WhereParts = [] ∧
    (BuildDynamicQuery.qb up s.postsBase f).toSqlRaw =
      Except.ok (postsSelect ++ sectionText " ORDER BY " ", " (orderClause up f) ++
        " LIMIT " ++ Nat.repr (uint64 f.Limit) ++ " OFFSET " ++ Nat.repr (uint64 f.Offset), []) ∧
    SearchService.SearchPosts.ToSql up s f = Except.ok (postsSelect, []) ∧
    ¬ containsText postsSelect "WHERE" ∧ ¬ containsText postsSelect "1=1" := by
  have hcl : emittedClauses f = [] := by simp [emittedClauses, hq, hu, hp, hm]
  have hpr : emittedPredicates f = [] := by simp [emittedPredicates, hq, hu, hp, hm]
  refine ⟨?_, ?_, ?_, by decide, by decide⟩
  · rw [qb_eq]
    simp [hpr, SearchService.postsBase, StatementBuilderType.Select, SelectBuilder.setFrom]
  · rw [constructed_toSqlRaw, hcl]
    simp [sectionText]
  · obtain ⟨db, ⟨pf⟩⟩ := s
    cases pf <;> rfl

/-- C6 (witness): a filter with only pagination and ordering set. -/
theorem no_predicate_without_filters_witness :
    ("" : String) = "" ∧ (none : Option Int) = none ∧ (none : Option Bool) = none ∧
    (none : Option Int) = none ∧
    (BuildDynamicQuery.qb Char.toUpper (NewSearchService emptyStore).postsBase
        { Query := "", UserID := none, Published := none, MinWordCount := none,
          Limit := 50, Offset := 0, OrderBy := "created_at", OrderDir := "DESC" }).WhereParts
      = [] ∧
    (BuildDynamicQuery.qb Char.toUpper (NewSearchService emptyStore).postsBase
        { Query := "", UserID := none, Published := none, MinWordCount := none,
          Limit := 50, Offset := 0, OrderBy := "created_at", OrderDir := "DESC" }).toSqlRaw =
      Except.ok (postsSelect ++ sectionText " ORDER BY " ", "
        (orderClause Char.toUpper
          { Query := "", UserID := none, Published := none, MinWordCount := none,
            Limit := 50, Offset := 0, OrderBy := "created_at", OrderDir := "DESC" }) ++
        " LIMIT " ++ Nat.repr (uint64 50) ++ " OFFSET " ++ Nat.repr (uint64 0), []) ∧
    SearchService.SearchPosts.ToSql Char.toUpper (NewSearchService emptyStore)
        { Query := "", UserID := none, Published := none, MinWordCount := none,
          Limit := 50, Offset := 0, OrderBy := "created_at", OrderDir := "DESC" } =
      Except.ok (postsSelect, []) ∧
    ¬ containsText postsSelect "WHERE" ∧ ¬ containsText postsSelect "1=1" :=
  ⟨rfl, rfl, rfl, rfl, no_predicate_without_filters Char.toUpper (NewSearchService emptyStore)
    { Query := "", UserID := none, Published := none, MinWordCount := none,
      Limit := 50, Offset := 0, OrderBy := "created_at", OrderDir := "DESC" } rfl rfl rfl rfl⟩

/-- C7 (counterexample): with `Limit = 0` and `Offset = -1` `SearchPosts` over
a store that answers with no rows returns that empty result, not an error. -/
theorem SearchPosts_accepts_bad_pagination :
    SearchService.SearchPosts Char.toUpper (NewSearchService emptyStore)
        { Query := "", UserID := none, Published := none, MinWordCount := none,
          Limit := 0, Offset := -1, OrderBy := "", OrderDir := "" } = Except.ok [] := by
  rfl

/-- C8 (counterexample): an `OrderBy` outside the list title, created_at,
updated_at is placed verbatim in the ORDER BY part of the builder that
`BuildDynamicQuery` constructs, and in the text compiled from it. -/
theorem order_field_not_checked :
    "id; DROP TABLE posts; --" ∉ orderAllowList ∧
    (BuildDynamicQuery.qb Char.toUpper (NewSearchService emptyStore).postsBase
        { Query := "", UserID := none, Published := none, MinWordCount := none,
          Limit := 10, Offset := 0, OrderBy := "id; DROP TABLE posts; --",
          OrderDir := "" }).OrderByParts =
      [Sqlizer.part "id; DROP TABLE posts; -- ASC" []] ∧
    constructedToSql Char.toUpper (NewSearchService emptyStore)
        { Query := "", UserID := none, Published := none, MinWordCount := none,
          Limit := 10, Offset := 0, OrderBy := "id; DROP TABLE posts; --", OrderDir := "" } =
      Except.ok (postsSelect ++ " ORDER BY id; DROP TABLE posts; -- ASC LIMIT 10 OFFSET 0", []) := by
  refine ⟨by decide, rfl, rfl⟩

/-- C9 (counterexample): two calls of `SearchUsers` with non-empty names and
the limits 1 and 2 compile to different query texts, because the limit is
written into the text. -/
theorem SearchUsers_text_depends_on_limit :
    SearchService.SearchUsers.ToSql (NewSearchService emptyStore) "ann" 1 =
      Except.ok (usersSelect ++ " WHERE name ILIKE $1 ORDER BY name ASC LIMIT 1",
        [Value.str "%ann%"]) ∧
    SearchService.SearchUsers.ToSql (NewSearchService emptyStore) "bob" 2 =
      Except.ok (usersSelect ++ " WHERE name ILIKE $1 ORDER BY name ASC LIMIT 2",
        [Value.str "%bob%"]) ∧
    usersSelect ++ " WHERE name ILIKE $1 ORDER BY name ASC LIMIT 1" ≠
      usersSelect ++ " WHERE name ILIKE $1 ORDER BY name ASC LIMIT 2" := by
  refine ⟨rfl, rfl, by decide⟩

/-- C9 (as amended): two calls of `SearchUsers` with non-empty names and the
same limit compile to the same query text; each name occurs only in the
argument list, as `%name%`, while the limit, when positive, is written into
the text as `LIMIT n`. -/
theorem SearchUsers_text_same_limit (s : SearchService) (n1 n2 : String) (limit : Int)
    (h1 : n1 ≠ "") (h2 : n2 ≠ "") :
    ∃ text,
      SearchService.SearchUsers.ToSql s n1 limit =
        Except.ok (text, [Value.str ("%" ++ n1 ++ "%")]) ∧
      SearchService.SearchUsers.ToSql s n2 limit =
        Except.ok (text, [Value.str ("%" ++ n2 ++ "%")]) ∧
      text = s.psql.PlaceholderFormat.ReplacePlaceholders
        (usersSelect ++ " WHERE name ILIKE ? ORDER BY name ASC" ++
          (if limit > 0 then " LIMIT " ++ Nat.repr (uint64 limit) else "")) :=
  ⟨_, SearchUsers_toSql_eq s n1 limit h1, SearchUsers_toSql_eq s n2 limit h2, rfl⟩

/-- C9 (witness): the names `ann` and `bob` with limit 5. -/
theorem SearchUsers_text_same_limit_witness :
    ("ann" : String) ≠ "" ∧ ("bob" : String) ≠ "" ∧
    ∃ text,
      SearchService.SearchUsers.ToSql (NewSearchService emptyStore) "ann" 5 =
        Except.ok (text, [Value.str ("%" ++ "ann" ++ "%")]) ∧
      SearchService.SearchUsers.ToSql (NewSearchService emptyStore) "bob" 5 =
        Except.ok (text, [Value.str ("%" ++ "bob" ++ "%")]) ∧
      text = (NewSearchService emptyStore).psql.PlaceholderFormat.ReplacePlaceholders
        (usersSelect ++ " WHERE name ILIKE ? ORDER BY name ASC" ++
          (if (5 : Int) > 0 then " LIMIT " ++ Nat.repr (uint64 5) else "")) :=
  ⟨by decide, by decide,
    SearchUsers_text_same_limit (NewSearchService emptyStore) "ann" "bob" 5 (by decide)
      (by decide)⟩

/-- C10: the predicates that `BuildDynamicQuery` adds to the builder it
constructs are, in this order, the text search, the `user_id` equality, the
`published` equality and the word-count threshold, each only when its filter
is present; the compiled text joins them with `AND` in that order and binds
their arguments in the same order; a nil `UserID` or `Published` adds no
clause, and no clause is an `IS NULL` test. -/
theorem predicates_joined_in_order (up : Char → Char) (s : SearchService)
    (base : SelectBuilder) (f : SearchFilters) :
    (BuildDynamicQuery.qb up base f).WhereParts = base.WhereParts ++ emittedPredicates f ∧
    (BuildDynamicQuery.qb up s.postsBase f).toSqlRaw =
      Except.ok
        (postsSelect ++ sectionText " WHERE " " AND " ((emittedClauses f).map Prod.fst) ++
          sectionText " ORDER BY " ", " (orderClause up f) ++
          " LIMIT " ++ Nat.repr (uint64 f.Limit) ++ " OFFSET " ++ Nat.repr (uint64 f.Offset),
         (emittedClauses f).flatMap Prod.snd) ∧
    (f.UserID = none → ∀ c ∈ emittedClauses f, c.1 ≠ "user_id = ?") ∧
    (f.Published = none → ∀ c ∈ emittedClauses f, c.1 ≠ "published = ?") ∧
    (∀ c ∈ emittedClauses f, ¬ containsText c.1 "IS NULL") := by
  refine ⟨?_, constructed_toSqlRaw up s f, ?_, ?_, ?_⟩
  · rw [qb_eq]
  · intro hu
    obtain ⟨q, u, p, m, l, o, ob, od⟩ := f
    subst hu
    by_cases hq : q = "" <;> cases p <;> cases m <;>
      simp [emittedClauses, hq, wordCountExpr]
  · intro hp
    obtain ⟨q, u, p, m, l, o, ob, od⟩ := f
    subst hp
    by_cases hq : q = "" <;> cases u <;> cases m <;>
      simp [emittedClauses, hq, wordCountExpr]
  · obtain ⟨q, u, p, m, l, o, ob, od⟩ := f
    by_cases hq : q = "" <;> cases u <;> cases p <;> cases m <;>
      simp [emittedClauses, hq, wordCountExpr] <;> decide

end repository

/-! ## Lemmas on digits, fragments and placeholder replacement -/

namespace squirrel

theorem digitChar_mem_digits (d : Nat) (h : d < 10) :
    Nat.digitChar d ∈ ("0123456789" : String).data := by
  interval_cases d <;> decide

theorem toDigitsCore_mem_digits (fuel : Nat) :
    ∀ (n : Nat) (ds : List Char), (∀ c ∈ ds, c ∈ ("0123456789" : String).data) →
      ∀ c ∈ Nat.toDigitsCore 10 fuel n ds, c ∈ ("0123456789" : String).data := by
  induction fuel with
  | zero => intro n ds h; simpa [Nat.toDigitsCore] using h
  | succ fuel ih =>
    intro n ds h
    have hd := digitChar_mem_digits (n % 10) (Nat.mod_lt _ (by decide))
    have h2 : ∀ c ∈ Nat.digitChar (n % 10) :: ds, c ∈ ("0123456789" : String).data := by
      intro c hc
      rcases List.mem_cons.mp hc with rfl | hc
      · exact hd
      · exact h c hc
    simp only [Nat.toDigitsCore]
    split
    · exact h2
    · exact ih _ _ h2

theorem repr_mem_digits (n : Nat) : ∀ c ∈ (Nat.repr n).data, c ∈ ("0123456789" : String).data := by
  have h := toDigitsCore_mem_digits (n + 1) n [] (by simp)
  simpa [Nat.repr, Nat.toDigits, List.asString] using h

/-- A fragment that shares no character with `d` and occurs in `a ++ d`
occurs in `a`. -/
theorem infix_of_infix_append (frag a d : List Char) (hne : frag ≠ [])
    (hd : ∀ c ∈ frag, c ∉ d) (h : frag <:+: a ++ d) : frag <:+: a := by
  obtain ⟨s, t, hst⟩ := h
  rcases List.append_eq_append_iff.mp hst with ⟨a', ha, _⟩ | ⟨c', hc, hdc⟩
  · exact ⟨s, a', ha.symm⟩
  · rcases List.append_eq_append_iff.mp hc with ⟨x, hx, hfrag⟩ | ⟨y, _, hy⟩
    · cases c' with
      | nil =>
        simp only [List.append_nil] at hfrag hx
        exact ⟨s, [], by simp [hx, hfrag]⟩
      | cons c c' =>
        exfalso
        have h1 : c ∈ frag := by simp [hfrag]
        have h2 : c ∈ d := by simp [hdc]
        exact hd c h1 h2
    · cases frag with
      | nil => exact absurd rfl hne
      | cons c frag =>
        exfalso
        have h2 : c ∈ d := by simp [hdc, hy]
        exact hd c (List.mem_cons_self _ _) h2

end squirrel

namespace squirrel

theorem replace_clean (pfx : String) (l : List Char) (h : '?' ∉ l) :
    ∀ i, replacePositionalPlaceholders pfx l i = l := by
  induction l with
  | nil => intro i; rfl
  | cons c rest ih =>
    intro i
    have hc : c ≠ '?' := fun hq => h (by simp [hq])
    have hrest : '?' ∉ rest := fun hq => h (List.mem_cons_of_mem _ hq)
    cases rest with
    | nil => simp [replacePositionalPlaceholders, hc]
    | cons d rest =>
      simp only [replacePositionalPlaceholders, hc, if_false]
      rw [ih hrest]

theorem replace_append_aux (pfx : String) (b : List Char) (hb : '?' ∉ b) :
    ∀ (n : Nat) (a : List Char), a.length ≤ n → ∀ i,
      replacePositionalPlaceholders pfx (a ++ b) i =
        replacePositionalPlaceholders pfx a i ++ b := by
  intro n
  induction n with
  | zero =>
    intro a ha i
    have : a = [] := List.length_eq_zero.mp (Nat.le_zero.mp ha)
    subst this
    simp [replacePositionalPlaceholders, replace_clean pfx b hb]
  | succ n ih =>
    intro a ha i
    match a, ha with
    | [], _ => simp [replacePositionalPlaceholders, replace_clean pfx b hb]
    | [c], _ =>
      cases b with
      | nil => simp
      | cons d b =>
        have hd : d ≠ '?' := fun hq => hb (by simp [hq])
        by_cases hc : c = '?'
        · simp [replacePositionalPlaceholders, hc, hd, replace_clean pfx (d :: b) hb]
        · simp [replacePositionalPlaceholders, hc, replace_clean pfx (d :: b) hb]
    | c :: d :: rest, ha =>
      have h1 := ih (d :: rest) (by simp at ha ⊢; omega)
      have h2 := ih rest (by simp at ha ⊢; omega)
      simp only [List.cons_append] at h1 ⊢
      by_cases hc : c = '?'
      · by_cases hd : d = '?'
        · simp [replacePositionalPlaceholders, hc, hd, h2]
        · simp [replacePositionalPlaceholders, hc, hd, h1]
      · simp [replacePositionalPlaceholders, hc, h1]

theorem replace_append (pfx : String) (a b : List Char) (hb : '?' ∉ b) (i : Nat) :
    replacePositionalPlaceholders pfx (a ++ b) i =
      replacePositionalPlaceholders pfx a i ++ b :=
  replace_append_aux pfx b hb a.length a (Nat.le_refl _) i

/-- Replacing placeholders in a text followed by a decimal number leaves the
number as it is. -/
theorem ReplacePlaceholders_append_repr (pf : PlaceholderFormat) (text : String) (n : Nat) :
    pf.ReplacePlaceholders (text ++ Nat.repr n) = pf.ReplacePlaceholders text ++ Nat.repr n := by
  cases pf with
  | Question => rfl
  | Dollar =>
    simp only [PlaceholderFormat.ReplacePlaceholders, String.data_append]
    rw [replace_append _ _ _ (repr_not_mem n)]
    apply String.ext
    simp [String.data_append]

end squirrel

namespace repository

open squirrel

set_option maxRecDepth 8000

theorem not_contains_append_repr (text frag : String) (n : Nat) (hne : frag.data ≠ [])
    (hfrag : ∀ c ∈ frag.data, c ∉ ("0123456789" : String).data)
    (h : ¬ containsText text frag) : ¬ containsText (text ++ Nat.repr n) frag := by
  intro hc
  apply h
  unfold containsText at hc ⊢
  rw [String.data_append] at hc
  exact infix_of_infix_append _ _ _ hne
    (fun c hcf hcd => hfrag c hcf (repr_mem_digits n c hcd)) hc

theorem uint64_of_nonneg (x : Int) (h0 : 0 ≤ x) (h1 : x < 2 ^ 63) : uint64 x = x.toNat := by
  unfold uint64
  rw [Int.emod_eq_of_lt h0 (by omega)]

end repository

namespace repository

open squirrel

set_option maxRecDepth 8000

theorem topUsers_toSqlRaw (pf : PlaceholderFormat) (L : String) :
    SelectBuilder.toSqlRaw
      { PlaceholderFormat := pf, Prefixes := [], Options := [],
        Columns := ["u.id", "u.name", "u.email", "COUNT(p.id) AS post_count",
          "COUNT(CASE WHEN p.published = true THEN 1 END) AS published_count",
          "MAX(p.created_at) AS last_post_date"].map (fun c => Sqlizer.part c []),
        From := some (Sqlizer.part "users u" []),
        Joins := [Sqlizer.part ("LEFT JOIN " ++ "posts p ON u.id = p.user_id") []],
        WhereParts := [], GroupBys := ["u.id", "u.name", "u.email"],
        HavingParts := [], OrderByParts := [Sqlizer.part "post_count DESC" []], Limit := L,
        Offset := "", Suffixes := [] } =
      Except.ok (if L.length > 0 then topUsersText ++ L else
        "SELECT u.id, u.name, u.email, COUNT(p.id) AS post_count, COUNT(CASE WHEN p.published = true THEN 1 END) AS published_count, MAX(p.created_at) AS last_post_date FROM users u LEFT JOIN posts p ON u.id = p.user_id GROUP BY u.id, u.name, u.email ORDER BY post_count DESC", []) := by
  rfl

theorem GetTopUsers_toSql_eq (s : SearchService) (limit : Int) :
    SearchService.GetTopUsers.ToSql s limit =
      Except.ok (topUsersText ++ Nat.repr (uint64 limit), []) := by
  have hraw := topUsers_toSqlRaw s.psql.PlaceholderFormat (Nat.repr (uint64 limit))
  simp only [repr_length_pos, if_true] at hraw
  have hb : (s.topUsersBuilder limit).toSqlRaw =
      Except.ok (topUsersText ++ Nat.repr (uint64 limit), []) := hraw
  have hpf : (s.topUsersBuilder limit).PlaceholderFormat = s.psql.PlaceholderFormat := rfl
  simp only [SearchService.GetTopUsers.ToSql, SelectBuilder.ToSql, hb, hpf,
    ReplacePlaceholders_append_repr]
  obtain ⟨db, ⟨pf⟩⟩ := s
  cases pf <;> rfl

end repository

/-! ## The claims about the word count, the statistics queries and `SearchUsers` -/

namespace repository

open squirrel

set_option maxRecDepth 8000

/-- C12 (counterexample): for `limit = -1` the query of `GetTopUsers` is not
limited to `limit` rows: its text ends in `LIMIT 18446744073709551615`. -/
theorem GetTopUsers_negative_limit :
    SearchService.GetTopUsers.ToSql (NewSearchService emptyStore) (-1) =
      Except.ok (topUsersText ++ "18446744073709551615", []) := by
  rfl

/-- C13: the query of `GetPostStats` is one projection over `posts p` joined
to `users u` that selects, in this order, `COUNT(p.id)`, a count of
`CASE WHEN p.published = true`, `COUNT(DISTINCT p.user_id)` and
`AVG(LENGTH(p.content))`; it has no WHERE, no GROUP BY and no arguments. -/
theorem GetPostStats_query_shape (s : SearchService) :
    SearchService.GetPostStats.ToSql s =
      Except.ok
        ("SELECT COUNT(p.id) as total_posts, " ++
          "COUNT(CASE WHEN p.published = true THEN 1 END) as published_posts, " ++
          "COUNT(DISTINCT p.user_id) as active_users, " ++
          "AVG(LENGTH(p.content)) as avg_content_length " ++
          "FROM posts p JOIN users u ON p.user_id = u.id", []) ∧
    s.postStatsBuilder.Columns =
      [Sqlizer.part "COUNT(p.id) as total_posts" [],
       Sqlizer.part "COUNT(CASE WHEN p.published = true THEN 1 END) as published_posts" [],
       Sqlizer.part "COUNT(DISTINCT p.user_id) as active_users" [],
       Sqlizer.part "AVG(LENGTH(p.content)) as avg_content_length" []] ∧
    s.postStatsBuilder.WhereParts = [] ∧
    s.postStatsBuilder.GroupBys = [] ∧
    ¬ containsText postStatsText "WHERE" ∧
    ¬ containsText postStatsText "GROUP BY" := by
  refine ⟨?_, rfl, rfl, rfl, by decide, by decide⟩
  obtain ⟨db, ⟨pf⟩⟩ := s
  cases pf <;> rfl

end repository

namespace repository

open squirrel

set_option maxRecDepth 8000

theorem usersAll_toSqlRaw (pf : PlaceholderFormat) (L : String) :
    SelectBuilder.toSqlRaw
      { PlaceholderFormat := pf, Prefixes := [], Options := [],
        Columns := ["id", "name", "email", "created_at", "updated_at"].map
          (fun c => Sqlizer.part c []),
        From := some (Sqlizer.part "users" []), Joins := [],
        WhereParts := [], GroupBys := [],
        HavingParts := [], OrderByParts := [Sqlizer.part "name ASC" []], Limit := L,
        Offset := "", Suffixes := [] } =
      Except.ok
        (if L.length > 0 then usersSelect ++ " ORDER BY name ASC" ++ " LIMIT " ++ L
          else usersSelect ++ " ORDER BY name ASC", []) := by
  rfl

theorem SearchUsers_toSql_all (s : SearchService) (limit : Int) :
    SearchService.SearchUsers.ToSql s "" limit =
      Except.ok (s.psql.PlaceholderFormat.ReplacePlaceholders
        (usersSelect ++ " ORDER BY name ASC" ++
          (if limit > 0 then " LIMIT " ++ Nat.repr (uint64 limit) else "")), []) := by
  by_cases hl : limit > 0
  · have hraw := usersAll_toSqlRaw s.psql.PlaceholderFormat (Nat.repr (uint64 limit))
    simp only [repr_length_pos, if_true] at hraw
    simp only [SearchService.SearchUsers.ToSql, hl, ne_eq, not_true_eq_false, if_true,
      if_false, SelectBuilder.ToSql, StatementBuilderType.Select, SelectBuilder.setFrom,
      SelectBuilder.OrderBy, SelectBuilder.setLimit, List.nil_append]
    rw [hraw]
    simp only [String.append_assoc]
  · have hraw := usersAll_toSqlRaw s.psql.PlaceholderFormat ""
    simp only [SearchService.SearchUsers.ToSql, hl, ne_eq, not_true_eq_false, if_true,
      if_false, SelectBuilder.ToSql, StatementBuilderType.Select, SelectBuilder.setFrom,
      SelectBuilder.OrderBy, List.nil_append]
    rw [hraw]
    simp

theorem contains_append_left (text frag rest : String) (h : containsText text frag) :
    containsText (text ++ rest) frag := by
  unfold containsText at h ⊢
  rw [String.data_append]
  obtain ⟨a, b, hab⟩ := h
  exact ⟨a, b ++ rest.data, by simp [← hab]⟩

/-- C20: for every name query and limit, `SearchUsers` compiles a query over
`users` that has the WHERE clause `name ILIKE $1`, bound to the name query
between two `%`, exactly when the name query is non-empty, always has
`ORDER BY name ASC`, and has a LIMIT clause exactly when the limit is
positive; the argument list has one element for a non-empty name query and
none otherwise. -/
theorem SearchUsers_query_shape (db : DB) (nameQuery : String) (limit : Int) :
    ∃ text args,
      SearchService.SearchUsers.ToSql (NewSearchService db) nameQuery limit =
        Except.ok (text, args) ∧
      text = "SELECT id, name, email, created_at, updated_at FROM users" ++
        (if nameQuery ≠ "" then " WHERE name ILIKE $1" else "") ++ " ORDER BY name ASC" ++
        (if limit > 0 then " LIMIT " ++ Nat.repr (uint64 limit) else "") ∧
      args = (if nameQuery ≠ "" then [Value.str ("%" ++ nameQuery ++ "%")] else []) ∧
      args.length = (if nameQuery ≠ "" then 1 else 0) ∧
      (containsText text "WHERE" ↔ nameQuery ≠ "") ∧
      (containsText text "LIMIT" ↔ limit > 0) ∧
      containsText text "ORDER BY name ASC" := by
  refine ⟨_, _, ?_, rfl, rfl, ?_, ?_, ?_, ?_⟩
  · by_cases hq : nameQuery = ""
    · subst hq
      rw [SearchUsers_toSql_all]
      by_cases hl : limit > 0
      · simp only [hl, if_true, ← String.append_assoc, ReplacePlaceholders_append_repr]
        rfl
      · simp only [hl, if_false]
        rfl
    · rw [SearchUsers_toSql_eq _ _ _ hq]
      by_cases hl : limit > 0
      · simp only [hl, hq, ne_eq, not_false_eq_true, if_true, ← String.append_assoc,
          ReplacePlaceholders_append_repr]
        rfl
      · simp only [hl, hq, ne_eq, not_false_eq_true, if_true, if_false]
        rfl
  · split <;> rfl
  · by_cases hq : nameQuery = ""
    · subst hq
      by_cases hl : limit > 0
      · simp only [hl, if_true, ne_eq, not_true_eq_false, if_false, ← String.append_assoc,
          iff_false]
        exact not_contains_append_repr _ _ _ (by decide) (by decide) (by decide)
      · simp only [hl, if_false, ne_eq, not_true_eq_false, iff_false]
        decide
    · simp only [hq, ne_eq, not_false_eq_true, if_true, iff_true]
      exact contains_append_left _ _ _ (by decide)
  · by_cases hl : limit > 0
    · simp only [hl, if_true, iff_true, ← String.append_assoc]
      apply contains_append_left
      by_cases hq : nameQuery = ""
      · subst hq
        decide
      · simp only [hq, ne_eq, not_false_eq_true, if_true]
        decide
    · simp only [hl, if_false, iff_false]
      by_cases hq : nameQuery = ""
      · subst hq
        decide
      · simp only [hq, ne_eq, not_false_eq_true, if_true]
        decide
  · apply contains_append_left
    by_cases hq : nameQuery = ""
    · subst hq
      decide
    · simp only [hq, ne_eq, not_false_eq_true, if_true]
      decide

end repository

/-! ## The claims about the row mappers -/

namespace repository

open golang models

theorem scanLoop_ok {α : Type} (xs : List α) :
    ∀ acc : Slice α, ∃ out, scanLoop (xs.map Except.ok) acc = Except.ok out := by
  induction xs with
  | nil => intro acc; exact ⟨acc, rfl⟩
  | cons x xs ih => intro acc; exact ih (acc.append x)

theorem scanLoop_error {α : Type} (pre : List α) (err : String)
    (post : List (Except String α)) :
    ∀ acc : Slice α,
      scanLoop (pre.map Except.ok ++ Except.error err :: post) acc = Except.error err := by
  induction pre with
  | nil => intro acc; rfl
  | cons x pre ih => intro acc; exact ih (acc.append x)

/-- C14 (evaluation at the failing input): for a row set with no rows and no
error `ScanPosts` returns the nil slice, while `UserRepository.GetAll` returns
the empty non-nil slice. -/
theorem ScanPosts_empty_is_nil :
    ScanPosts (some { items := [], err := none }) = (Slice.nil, none) ∧
    (ScanPosts (some { items := [], err := none })).1.isNil = true ∧
    UserRepository.GetAll
      ({ db := { Query := fun _ => Except.ok { items := [], err := none } } } :
        UserRepository Nat) = (Slice.mk [], none) ∧
    (UserRepository.GetAll
      ({ db := { Query := fun _ => Except.ok { items := [], err := none } } } :
        UserRepository Nat)).1.isNil = false := by
  refine ⟨rfl, rfl, rfl, rfl⟩

/-- C15: when decoding some row fails with error `err`, or every row decodes
and iteration ends with error `err`, both `ScanPosts` and
`UserRepository.GetAll` return the nil slice together with `err`; and whenever
either of them returns an error at all, the slice it returns is nil. -/
theorem mappers_no_partial_result {User : Type} (rows : sql.Rows Post) (urows : sql.Rows User)
    (r : UserRepository User) (err : String)
    (hq : r.db.Query getAllUsersQuery = Except.ok urows)
    (hp : (∃ (pre : List Post) (post : List (Except String Post)),
        rows.items = pre.map Except.ok ++ Except.error err :: post) ∨
      (∃ all : List Post, rows.items = all.map Except.ok ∧ rows.err = some err))
    (hu : (∃ (pre : List User) (post : List (Except String User)),
        urows.items = pre.map Except.ok ++ Except.error err :: post) ∨
      (∃ all : List User, urows.items = all.map Except.ok ∧ urows.err = some err)) :
    ScanPosts (some rows) = (Slice.nil, some err) ∧
    r.GetAll = (Slice.nil, some err) ∧
    (∀ anyRows : Option (sql.Rows Post),
      (ScanPosts anyRows).2 ≠ none → (ScanPosts anyRows).1 = Slice.nil) ∧
    (∀ anyRepo : UserRepository User, anyRepo.GetAll.2 ≠ none → anyRepo.GetAll.1 = Slice.nil) := by
  refine ⟨?_, ?_, ?_, ?_⟩
  · rcases hp with ⟨pre, post, h⟩ | ⟨all, h, he⟩
    · simp only [ScanPosts, h, scanLoop_error]
    · obtain ⟨out, hout⟩ := scanLoop_ok all (Slice.nil : Slice Post)
      simp only [ScanPosts, h, hout, he]
  · rcases hu with ⟨pre, post, h⟩ | ⟨all, h, he⟩
    · simp only [UserRepository.GetAll, hq, h, scanLoop_error]
    · obtain ⟨out, hout⟩ := scanLoop_ok all (Slice.mk [] : Slice User)
      simp only [UserRepository.GetAll, hq, h, hout, he]
  · intro anyRows
    unfold ScanPosts
    split
    · intro _; rfl
    · split
      · intro _; rfl
      · split
        · intro _; rfl
        · intro h; exact absurd rfl h
  · intro anyRepo
    unfold UserRepository.GetAll
    split
    · intro _; rfl
    · split
      · intro _; rfl
      · split
        · intro _; rfl
        · intro h; exact absurd rfl h

/-- C15 (witness): a post row set whose second row fails to decode and a user
row set whose iteration ends with an error, both with the error `broken`. -/
theorem mappers_no_partial_result_witness :
    brokenUserRepo.db.Query getAllUsersQuery = Except.ok brokenUserRows ∧
    ((∃ (pre : List Post) (post : List (Except String Post)),
        brokenPostRows.items = pre.map Except.ok ++ Except.error "broken" :: post) ∨
      (∃ all : List Post, brokenPostRows.items = all.map Except.ok ∧
        brokenPostRows.err = some "broken")) ∧
    ((∃ (pre : List Nat) (post : List (Except String Nat)),
        brokenUserRows.items = pre.map Except.ok ++ Except.error "broken" :: post) ∨
      (∃ all : List Nat, brokenUserRows.items = all.map Except.ok ∧
        brokenUserRows.err = some "broken")) ∧
    ScanPosts (some brokenPostRows) = (Slice.nil, some "broken") ∧
    brokenUserRepo.GetAll = (Slice.nil, some "broken") ∧
    (∀ anyRows : Option (sql.Rows Post),
      (ScanPosts anyRows).2 ≠ none → (ScanPosts anyRows).1 = Slice.nil) ∧
    (∀ anyRepo : UserRepository Nat, anyRepo.GetAll.2 ≠ none → anyRepo.GetAll.1 = Slice.nil) :=
  ⟨rfl, Or.inl ⟨[samplePost], [Except.ok samplePost], rfl⟩, Or.inr ⟨[1, 2], rfl, rfl⟩,
    mappers_no_partial_result brokenPostRows brokenUserRows brokenUserRepo "broken" rfl
      (Or.inl ⟨[samplePost], [Except.ok samplePost], rfl⟩) (Or.inr ⟨[1, 2], rfl, rfl⟩)⟩

end repository

/-! ## The claim about `PostRepository.Update` -/

namespace repository

open squirrel models

set_option maxRecDepth 8000

theorem blankUpdate_placeholders (t c p : Bool) :
    dollarPlaceholders (PostRepository.Update.query 0 (blankUpdate t c p)).1.data =
      List.range' 1 (PostRepository.Update.query 0 (blankUpdate t c p)).2.length := by
  cases t <;> cases c <;> cases p <;> decide

/-- C16: for an update request with at least one non-nil field, the query that
`PostRepository.Update` sends to the store has the placeholders `$1 .. $k` once
each in increasing order, `k` being the number of arguments; the i-th SET
placeholder belongs to the i-th non-nil field in the order title, content,
published, whose value is the i-th argument, and the id is the last argument,
for the placeholder `$k` of the WHERE clause. -/
theorem Update_placeholders_sequential (r : PostRepository) (id : Int)
    (req : UpdatePostRequest)
    (h : req.Title ≠ none ∨ req.Content ≠ none ∨ req.Published ≠ none) :
    r.Update id req =
      r.db.getPost (PostRepository.Update.query id req).1 (PostRepository.Update.query id req).2 ∧
    (PostRepository.Update.query id req).2 =
      (presentFields req).map Prod.snd ++ [Value.int id] ∧
    (PostRepository.Update.query id req).1 =
      "\nUPDATE posts SET " ++
        ", ".intercalate ("updated_at = NOW()" ::
          ((presentFields req).enumFrom 1).map (fun p => p.2.1 ++ " = $" ++ Nat.repr p.1)) ++
        "\nWHERE id = $" ++ Nat.repr ((presentFields req).length + 1) ++
        "\nRETURNING id, user_id, title, content, published, created_at, updated_at\n" ∧
    dollarPlaceholders (PostRepository.Update.query id req).1.data =
      List.range' 1 (PostRepository.Update.query id req).2.length := by
  obtain ⟨t, c, p⟩ := req
  cases t with
  | none =>
    cases c with
    | none =>
      cases p with
      | none => simp at h
      | some p => exact ⟨rfl, rfl, rfl, blankUpdate_placeholders false false true⟩
    | some c =>
      cases p with
      | none => exact ⟨rfl, rfl, rfl, blankUpdate_placeholders false true false⟩
      | some p => exact ⟨rfl, rfl, rfl, blankUpdate_placeholders false true true⟩
  | some t =>
    cases c with
    | none =>
      cases p with
      | none => exact ⟨rfl, rfl, rfl, blankUpdate_placeholders true false false⟩
      | some p => exact ⟨rfl, rfl, rfl, blankUpdate_placeholders true false true⟩
    | some c =>
      cases p with
      | none => exact ⟨rfl, rfl, rfl, blankUpdate_placeholders true true false⟩
      | some p => exact ⟨rfl, rfl, rfl, blankUpdate_placeholders true true true⟩

/-- C16 (witness): an update of the title and the published flag of post 9. -/
theorem Update_placeholders_sequential_witness :
    (sampleUpdate.Title ≠ none ∨ sampleUpdate.Content ≠ none ∨ sampleUpdate.Published ≠ none) ∧
    samplePostRepo.Update 9 sampleUpdate =
      samplePostRepo.db.getPost (PostRepository.Update.query 9 sampleUpdate).1
        (PostRepository.Update.query 9 sampleUpdate).2 ∧
    (PostRepository.Update.query 9 sampleUpdate).2 =
      (presentFields sampleUpdate).map Prod.snd ++ [Value.int 9] ∧
    (PostRepository.Update.query 9 sampleUpdate).1 =
      "\nUPDATE posts SET " ++
        ", ".intercalate ("updated_at = NOW()" ::
          ((presentFields sampleUpdate).enumFrom 1).map
            (fun p => p.2.1 ++ " = $" ++ Nat.repr p.1)) ++
        "\nWHERE id = $" ++ Nat.repr ((presentFields sampleUpdate).length + 1) ++
        "\nRETURNING id, user_id, title, content, published, created_at, updated_at\n" ∧
    dollarPlaceholders (PostRepository.Update.query 9 sampleUpdate).1.data =
      List.range' 1 (PostRepository.Update.query 9 sampleUpdate).2.length :=
  ⟨Or.inl (by decide),
    Update_placeholders_sequential samplePostRepo 9 sampleUpdate (Or.inl (by decide))⟩

end repository

/-! ## The claims about validation and the task manager -/

namespace models

open golang

theorem validate_rules (T C : String) (P : Bool) (U : Int) (v : Option String)
    (hv : v = if T = "" ∨ len T < 5 then some ErrInvalidTitle
      else if C = "" ∧ P = true then some ErrInvalidContent
      else if U ≤ 0 then some ErrInvalidUserId
      else none) :
    (v = none ↔ (T ≠ "" ∧ 5 ≤ len T) ∧ (P = true → C ≠ "") ∧ 0 < U) ∧
    (¬ (T ≠ "" ∧ 5 ≤ len T) → v = some ErrInvalidTitle) ∧
    ((T ≠ "" ∧ 5 ≤ len T) → ¬ (P = true → C ≠ "") → v = some ErrInvalidContent) ∧
    ((T ≠ "" ∧ 5 ≤ len T) → (P = true → C ≠ "") → ¬ 0 < U → v = some ErrInvalidUserId) := by
  subst hv
  by_cases h1 : T = "" ∨ len T < 5
  · have hn : ¬ (T ≠ "" ∧ 5 ≤ len T) := by
      rintro ⟨ha, hb⟩
      rcases h1 with h1 | h1
      · exact ha h1
      · omega
    rw [if_pos h1]
    exact ⟨⟨fun h => Option.noConfusion h, fun h => absurd h.1 hn⟩, fun _ => rfl,
      fun h => absurd h hn, fun h => absurd h hn⟩
  · have hy : T ≠ "" ∧ 5 ≤ len T := by
      constructor
      · exact fun h => h1 (Or.inl h)
      · exact Nat.le_of_not_lt (fun h => h1 (Or.inr h))
    by_cases h2 : C = "" ∧ P = true
    · have hn : ¬ (P = true → C ≠ "") := fun h => h h2.2 h2.1
      rw [if_neg h1, if_pos h2]
      exact ⟨⟨fun h => Option.noConfusion h, fun h => absurd h.2.1 hn⟩, fun h => absurd hy h,
        fun _ _ => rfl, fun _ h => absurd h hn⟩
    · have hc : P = true → C ≠ "" := fun hp hc => h2 ⟨hc, hp⟩
      by_cases h3 : U ≤ 0
      · have hn : ¬ 0 < U := by omega
        rw [if_neg h1, if_neg h2, if_pos h3]
        exact ⟨⟨fun h => Option.noConfusion h, fun h => absurd h.2.2 hn⟩, fun h => absurd hy h,
          fun _ h => absurd hc h, fun _ _ _ => rfl⟩
      · have hp : 0 < U := by omega
        rw [if_neg h1, if_neg h2, if_neg h3]
        exact ⟨⟨fun _ => ⟨hy, hc, hp⟩, fun _ => rfl⟩, fun h => absurd hy h,
          fun _ h => absurd hc h, fun _ _ h => absurd hp h⟩

/-- C17 (evaluation at the failing input, and what the code checks): a post
or request whose title is `ééé`, three characters long, passes `Validate`,
because the title rule compares the byte length of the title with 5; with
"at least 5 bytes" for "at least 5 characters" the rest of the claim holds:
no error exactly when the three rules hold, and the first failing rule in the
order title, content, user id names the error. -/
theorem Validate_title_counts_bytes (p : Post) (req : CreatePostRequest) :
    ("ééé" : String).length = 3 ∧
    len "ééé" = 6 ∧
    Post.Validate
      { ID := 0, UserID := 1, Title := "ééé", Content := "", Published := false,
        CreatedAt := 0, UpdatedAt := 0 } = none ∧
    CreatePostRequest.Validate
      { UserID := 1, Title := "ééé", Content := "", Published := false } = none ∧
    (p.Validate = none ↔
      (p.Title ≠ "" ∧ 5 ≤ len p.Title) ∧ (p.Published = true → p.Content ≠ "") ∧ 0 < p.UserID) ∧
    (req.Validate = none ↔
      (req.Title ≠ "" ∧ 5 ≤ len req.Title) ∧ (req.Published = true → req.Content ≠ "") ∧
        0 < req.UserID) ∧
    (¬ (p.Title ≠ "" ∧ 5 ≤ len p.Title) → p.Validate = some ErrInvalidTitle) ∧
    ((p.Title ≠ "" ∧ 5 ≤ len p.Title) → ¬ (p.Published = true → p.Content ≠ "") →
      p.Validate = some ErrInvalidContent) ∧
    ((p.Title ≠ "" ∧ 5 ≤ len p.Title) → (p.Published = true → p.Content ≠ "") →
      ¬ 0 < p.UserID → p.Validate = some ErrInvalidUserId) ∧
    (¬ (req.Title ≠ "" ∧ 5 ≤ len req.Title) → req.Validate = some ErrInvalidTitle) ∧
    ((req.Title ≠ "" ∧ 5 ≤ len req.Title) → ¬ (req.Published = true → req.Content ≠ "") →
      req.Validate = some ErrInvalidContent) ∧
    ((req.Title ≠ "" ∧ 5 ≤ len req.Title) → (req.Published = true → req.Content ≠ "") →
      ¬ 0 < req.UserID → req.Validate = some ErrInvalidUserId) := by
  have hp := validate_rules p.Title p.Content p.Published p.UserID p.Validate rfl
  have hr := validate_rules req.Title req.Content req.Published req.UserID req.Validate rfl
  exact ⟨by decide, by decide, by decide, by decide, hp.1, hr.1, hp.2.1, hp.2.2.1, hp.2.2.2,
    hr.2.1, hr.2.2.1, hr.2.2.2⟩

end models

namespace taskmanager

/-- C18: `UpdateTask` returns an error exactly when the title is empty
(`ErrEmptyTitle`, whether or not the id is known) or the title is non-empty
and no task has the id (`ErrTaskNotFound`); on either error the manager is
unchanged; on success the next id and every other task are unchanged and the
task with that id keeps its `ID` and `CreatedAt` and takes the new title,
description and done flag. -/
theorem UpdateTask_outcomes (tm : TaskManager) (id : Int) (title description : String)
    (done : Bool) :
    ((tm.UpdateTask id title description done).2 ≠ none ↔
      title = "" ∨ (title ≠ "" ∧ tm.tasks id = none)) ∧
    (title = "" →
      tm.UpdateTask id title description done = (tm, some ErrEmptyTitle)) ∧
    (title ≠ "" → tm.tasks id = none →
      tm.UpdateTask id title description done = (tm, some ErrTaskNotFound)) ∧
    (∀ task, title ≠ "" → tm.tasks id = some task →
      (tm.UpdateTask id title description done).2 = none ∧
      (tm.UpdateTask id title description done).1.nextID = tm.nextID ∧
      (tm.UpdateTask id title description done).1.tasks id =
        some { ID := task.ID, Title := title, Description := description, Done := done,
               CreatedAt := task.CreatedAt } ∧
      ∀ k, k ≠ id → (tm.UpdateTask id title description done).1.tasks k = tm.tasks k) := by
  have hE : title = "" →
      tm.UpdateTask id title description done = (tm, some ErrEmptyTitle) := by
    intro h
    simp [TaskManager.UpdateTask, h]
  have hN : title ≠ "" → tm.tasks id = none →
      tm.UpdateTask id title description done = (tm, some ErrTaskNotFound) := by
    intro h hn
    simp [TaskManager.UpdateTask, h, hn]
  have hS : ∀ task, title ≠ "" → tm.tasks id = some task →
      (tm.UpdateTask id title description done).2 = none ∧
      (tm.UpdateTask id title description done).1.nextID = tm.nextID ∧
      (tm.UpdateTask id title description done).1.tasks id =
        some { ID := task.ID, Title := title, Description := description, Done := done,
               CreatedAt := task.CreatedAt } ∧
      ∀ k, k ≠ id → (tm.UpdateTask id title description done).1.tasks k = tm.tasks k := by
    intro task h hs
    have hu : tm.UpdateTask id title description done =
        (({ tasks := fun k =>
              if k = id then
                some ({ ID := task.ID, Title := title, Description := description, Done := done,
                        CreatedAt := task.CreatedAt } : Task)
              else tm.tasks k,
            nextID := tm.nextID } : TaskManager), (none : Option String)) := by
      simp only [TaskManager.UpdateTask, if_neg h, hs]
    rw [hu]
    refine ⟨rfl, rfl, ?_, ?_⟩
    · simp
    · intro k hk
      simp [hk]
  refine ⟨?_, hE, hN, hS⟩
  by_cases h : title = ""
  · rw [hE h]
    simp [h]
  · cases hs : tm.tasks id with
    | none =>
      rw [hN h hs]
      simp [h]
    | some task =>
      rw [(hS task h hs).1]
      simp [h]

end taskmanager

/-! ## The claim about user names -/

namespace userdomain

open golang

set_option maxRecDepth 8000

/-- C19 (evaluation at the failing inputs, and what the code checks): the
one-character name `é` is accepted by `ValidateName` and by `NewUser`, and a
name of 26 Cyrillic letters is rejected by both, because the rule compares the
byte length of the trimmed name with 2 and 50: a name is accepted by
`ValidateName` exactly when its trimmed form is 2 to 50 bytes long. -/
theorem ValidateName_counts_bytes (lowerRune : Char → Char) (now : Int) (name : String) :
    ("é" : String).length = 1 ∧ len "é" = 2 ∧
    ValidateName "é" = none ∧
    NewUser lowerRune now "a@b.co" "é" "Abcdefg1" =
      Except.ok { ID := 0, Email := "a@b.co", Name := "é", Password := "Abcdefg1",
                  CreatedAt := now, UpdatedAt := now } ∧
    cyrillicName.length = 26 ∧ len cyrillicName = 52 ∧
    strings.TrimSpace cyrillicName = cyrillicName ∧
    ValidateName cyrillicName = some "name must be between 2 and 50 characters" ∧
    NewUser lowerRune now "a@b.co" cyrillicName "Abcdefg1" =
      Except.error "name must be between 2 and 50 characters" ∧
    (ValidateName name = none ↔
      2 ≤ len (strings.TrimSpace name) ∧ len (strings.TrimSpace name) ≤ 50) := by
  refine ⟨by decide, by decide, by decide, by rfl, by decide, by decide, by decide, by decide,
    by rfl, ?_⟩
  unfold ValidateName
  by_cases h : len (strings.TrimSpace name) < 2 ∨ len (strings.TrimSpace name) > 50
  · simp only [h, if_true]
    constructor
    · intro h2; cases h2
    · intro h2; omega
  · simp only [h, if_false, true_iff]
    omega

end userdomain

namespace taskmanager

open golang

theorem wrapInt64_of_inRange (x : Int) (h0 : -2 ^ 63 ≤ x) (h1 : x < 2 ^ 63) :
    wrapInt64 x = x := by
  unfold wrapInt64
  omega

theorem wrapInt64_succ (x : Int) : wrapInt64 (wrapInt64 x + 1) = wrapInt64 (x + 1) := by
  unfold wrapInt64
  omega

theorem run_append (tm : TaskManager) (ops1 ops2 : List Op) :
    run tm (ops1 ++ ops2) = run (run tm ops1) ops2 := by
  simp [run, List.foldl_append]

theorem successfulAdds_append (ops1 ops2 : List Op) :
    successfulAdds (ops1 ++ ops2) = successfulAdds ops1 + successfulAdds ops2 := by
  induction ops1 with
  | nil => simp [successfulAdds]
  | cons op ops ih =>
    cases op <;> simp [successfulAdds, ih]
    omega

theorem Inv_init : Inv NewTaskManager 0 := by
  refine ⟨rfl, ?_⟩
  intro k t h
  simp [NewTaskManager] at h

theorem Inv_add (tm : TaskManager) (n : Nat) (now : Int) (title description : String)
    (h : Inv tm n) (ht : title ≠ "") (hb : n + 1 < 2 ^ 63 - 1) :
    Inv (tm.AddTask now title description).1 (n + 1) := by
  obtain ⟨hn, hs⟩ := h
  simp only [TaskManager.AddTask, if_neg ht]
  constructor
  · show wrapInt64 (tm.nextID + 1) = 1 + ((n + 1 : Nat) : Int)
    rw [wrapInt64_of_inRange _ (by omega) (by omega)]
    push_cast
    omega
  · intro k t hk
    have hnext : wrapInt64 (tm.nextID + 1) = tm.nextID + 1 :=
      wrapInt64_of_inRange _ (by omega) (by omega)
    simp only at hk
    show t.ID = k ∧ 1 ≤ k ∧ k < wrapInt64 (tm.nextID + 1)
    rw [hnext]
    by_cases hkn : k = tm.nextID
    · rw [if_pos hkn] at hk
      cases hk
      refine ⟨hkn.symm, ?_, ?_⟩ <;> omega
    · rw [if_neg hkn] at hk
      obtain ⟨h1, h2, h3⟩ := hs k t hk
      refine ⟨h1, h2, ?_⟩
      omega

theorem Inv_update (tm : TaskManager) (n : Nat) (id : Int) (title description : String)
    (done : Bool) (h : Inv tm n) : Inv (tm.UpdateTask id title description done).1 n := by
  obtain ⟨hn, hs⟩ := h
  unfold TaskManager.UpdateTask
  by_cases ht : title = ""
  · rw [if_pos ht]
    exact ⟨hn, hs⟩
  · rw [if_neg ht]
    cases hid : tm.tasks id with
    | none => exact ⟨hn, hs⟩
    | some task =>
      refine ⟨hn, ?_⟩
      intro k t hk
      show t.ID = k ∧ 1 ≤ k ∧ k < tm.nextID
      simp only at hk
      by_cases hki : k = id
      · rw [if_pos hki] at hk
        cases hk
        obtain ⟨h1, h2, h3⟩ := hs id task hid
        subst hki
        exact ⟨h1, h2, h3⟩
      · rw [if_neg hki] at hk
        exact hs k t hk

theorem Inv_delete (tm : TaskManager) (n : Nat) (id : Int) (h : Inv tm n) :
    Inv (tm.DeleteTask id).1 n := by
  obtain ⟨hn, hs⟩ := h
  unfold TaskManager.DeleteTask
  cases hid : tm.tasks id with
  | none => exact ⟨hn, hs⟩
  | some task =>
    refine ⟨hn, ?_⟩
    intro k t hk
    show t.ID = k ∧ 1 ≤ k ∧ k < tm.nextID
    simp only at hk
    by_cases hki : k = id
    · rw [if_pos hki] at hk
      cases hk
    · rw [if_neg hki] at hk
      exact hs k t hk

theorem Inv_run (ops : List Op) :
    ∀ (tm : TaskManager) (n : Nat), Inv tm n → n + successfulAdds ops < 2 ^ 63 - 1 →
      Inv (run tm ops) (n + successfulAdds ops) := by
  induction ops with
  | nil => intro tm n h _; simpa [run, successfulAdds] using h
  | cons op ops ih =>
    intro tm n h hb
    cases op with
    | add now title description =>
      by_cases ht : title = ""
      · have hst : step tm (Op.add now title description) = tm := by
          simp [step, TaskManager.AddTask, ht]
        have hc : successfulAdds (Op.add now title description :: ops) = successfulAdds ops := by
          simp [successfulAdds, ht]
        rw [hc] at hb ⊢
        have := ih tm n h hb
        simpa [run, hst] using this
      · have hc : successfulAdds (Op.add now title description :: ops) =
            1 + successfulAdds ops := by
          simp [successfulAdds, ht]
        rw [hc] at hb ⊢
        have h1 := Inv_add tm n now title description h ht (by omega)
        have := ih _ (n + 1) h1 (by omega)
        have he : n + (1 + successfulAdds ops) = n + 1 + successfulAdds ops := by omega
        rw [he]
        simpa [run, step] using this
    | update id title description done =>
      have h1 := Inv_update tm n id title description done h
      have := ih _ n h1 (by simpa [successfulAdds] using hb)
      simpa [run, step, successfulAdds] using this
    | delete id =>
      have h1 := Inv_delete tm n id h
      have := ih _ n h1 (by simpa [successfulAdds] using hb)
      simpa [run, step, successfulAdds] using this

end taskmanager

/-! ## The claims about `ToPost`, the limit of `GetTopUsers` and task ids -/

namespace models

/-- C23: `ToPost` copies `UserID`, `Title` and `Content` of the request into
the post and sets `CreatedAt` and `UpdatedAt` to the same instant, but it does
not carry `Published` over: the post has `Published = false`, also for a
request with `Published = true`, and its `ID` is 0. -/
theorem ToPost_drops_published (now : Int) (req : CreatePostRequest) :
    (req.ToPost now).UserID = req.UserID ∧
    (req.ToPost now).Title = req.Title ∧
    (req.ToPost now).Content = req.Content ∧
    (req.ToPost now).CreatedAt = (req.ToPost now).UpdatedAt ∧
    (req.ToPost now).CreatedAt = now ∧
    (req.ToPost now).Published = false ∧
    (req.ToPost now).ID = 0 ∧
    (CreatePostRequest.ToPost now
      { UserID := req.UserID, Title := req.Title, Content := req.Content,
        Published := true }).Published = false :=
  ⟨rfl, rfl, rfl, rfl, rfl, rfl, rfl, rfl⟩

end models

namespace repository

open squirrel

set_option maxRecDepth 8000

theorem uint64_of_neg (x : Int) (h0 : x < 0) (h1 : -2 ^ 63 ≤ x) :
    uint64 x = (2 ^ 64 + x).toNat := by
  unfold uint64
  have h : x % 2 ^ 64 = 2 ^ 64 + x := by omega
  rw [h]

end repository

namespace taskmanager

open golang

theorem add_delete_empty (x : Int) :
    run { tasks := fun _ => none, nextID := x } [Op.add 0 "t" "", Op.delete x] =
      { tasks := fun _ => none, nextID := wrapInt64 (x + 1) } := by
  have hne : ("t" : String) ≠ "" := by decide
  simp only [run, List.foldl_cons, List.foldl_nil, step, TaskManager.AddTask, if_neg hne,
    TaskManager.DeleteTask, if_pos]
  congr 1
  funext k
  by_cases hk : k = x <;> simp [hk]

theorem churn_state (n : Nat) :
    run NewTaskManager (churn n) =
      { tasks := fun _ => none, nextID := wrapInt64 (1 + (n : Int)) } := by
  induction n with
  | zero => rfl
  | succ n ih =>
    have he : 1 + (n : Int) + 1 = 1 + ((n + 1 : Nat) : Int) := by
      push_cast
      omega
    simp only [churn, run_append, ih, add_delete_empty, wrapInt64_succ]
    rw [he]

theorem churn_starts_with_add (n : Nat) : ∃ rest, churn (n + 1) = Op.add 0 "t" "" :: rest := by
  induction n with
  | zero => exact ⟨[Op.delete (wrapInt64 (1 + (0 : Nat)))], rfl⟩
  | succ n ih =>
    obtain ⟨rest, hr⟩ := ih
    refine ⟨rest ++ [Op.add 0 "t" "", Op.delete (wrapInt64 (1 + ((n + 1 : Nat) : Int)))], ?_⟩
    show churn (n + 1) ++ _ = _
    rw [hr]
    rfl

/-- C21 (counterexample): after `2^63 - 1` rounds of adding a task and
deleting it again the next id has wrapped around to `-2^63`, so the task added
next is stored with an `ID` below 1; and after `2^64` rounds (whose first call
is the `AddTask` that stored the task 1) the manager is back in its initial
state and `AddTask` hands out the id 1 again. -/
theorem ids_wrap_around :
    (run NewTaskManager (churn (2 ^ 63 - 1) ++ [Op.add 0 "t" ""])).tasks (-2 ^ 63) =
      some { ID := -2 ^ 63, Title := "t", Description := "", Done := false, CreatedAt := 0 } ∧
    ¬ (1 : Int) ≤ -2 ^ 63 ∧
    (∃ rest, churn (2 ^ 64) = Op.add 0 "t" "" :: rest) ∧
    (run NewTaskManager [Op.add 0 "t" ""]).tasks 1 =
      some { ID := 1, Title := "t", Description := "", Done := false, CreatedAt := 0 } ∧
    run NewTaskManager (churn (2 ^ 64)) = NewTaskManager ∧
    ((run NewTaskManager (churn (2 ^ 64))).AddTask 0 "t" "").2 =
      Except.ok { ID := 1, Title := "t", Description := "", Done := false, CreatedAt := 0 } := by
  have hw1 : wrapInt64 (1 + ((2 ^ 63 - 1 : Nat) : Int)) = -2 ^ 63 := by decide
  have hw2 : wrapInt64 (1 + ((2 ^ 64 : Nat) : Int)) = 1 := by decide
  have hne : ("t" : String) ≠ "" := by decide
  have hback : run NewTaskManager (churn (2 ^ 64)) = NewTaskManager := by
    rw [churn_state, hw2]
    rfl
  refine ⟨?_, by decide, ?_, rfl, hback, ?_⟩
  · rw [run_append, churn_state, hw1]
    simp [run, step, TaskManager.AddTask]
  · have h := churn_starts_with_add (2 ^ 64 - 1)
    have he : 2 ^ 64 - 1 + 1 = 2 ^ 64 := by norm_num
    rw [he] at h
    exact h
  · rw [hback]
    rfl

/-- C21 (as amended): in every state reached from `NewTaskManager` by calls of
`AddTask`, `UpdateTask` and `DeleteTask` of which fewer than `2^63 - 1` are
successful `AddTask` calls, every stored task has its map key as its `ID`,
which is at least 1 and below `nextID`; a successful `AddTask` in such a state
returns the id `nextID`, which differs from the `ID` of every task stored now
and of every task stored in any earlier state, deleted since or not. -/
theorem ids_fresh_before_overflow (ops1 ops2 : List Op) (now : Int)
    (title description : String)
    (hb : successfulAdds (ops1 ++ ops2) < 2 ^ 63 - 1) (ht : title ≠ "") :
    (∀ k t, (run NewTaskManager (ops1 ++ ops2)).tasks k = some t →
      t.ID = k ∧ 1 ≤ k ∧ k < (run NewTaskManager (ops1 ++ ops2)).nextID) ∧
    ∃ task,
      ((run NewTaskManager (ops1 ++ ops2)).AddTask now title description).2 = Except.ok task ∧
      task.ID = (run NewTaskManager (ops1 ++ ops2)).nextID ∧
      (∀ k t, (run NewTaskManager (ops1 ++ ops2)).tasks k = some t → t.ID ≠ task.ID) ∧
      (∀ k t, (run NewTaskManager ops1).tasks k = some t → t.ID ≠ task.ID) := by
  have hb0 : 0 + successfulAdds (ops1 ++ ops2) < 2 ^ 63 - 1 := by omega
  have hall := Inv_run (ops1 ++ ops2) NewTaskManager 0 Inv_init hb0
  have hsplit := successfulAdds_append ops1 ops2
  have hb1 : 0 + successfulAdds ops1 < 2 ^ 63 - 1 := by omega
  have hfirst := Inv_run ops1 NewTaskManager 0 Inv_init hb1
  obtain ⟨hn, hs⟩ := hall
  obtain ⟨hn1, hs1⟩ := hfirst
  refine ⟨hs, ⟨(⟨(run NewTaskManager (ops1 ++ ops2)).nextID, title, description, false,
    now⟩ : Task), ?_, rfl, ?_, ?_⟩⟩
  · simp only [TaskManager.AddTask, if_neg ht]
  · intro k t hk
    obtain ⟨h1, _, h3⟩ := hs k t hk
    show t.ID ≠ (run NewTaskManager (ops1 ++ ops2)).nextID
    omega
  · intro k t hk
    obtain ⟨h1, _, h3⟩ := hs1 k t hk
    show t.ID ≠ (run NewTaskManager (ops1 ++ ops2)).nextID
    rw [hn, hsplit]
    rw [hn1] at h3
    push_cast at h3 ⊢
    omega

/-- C21 (witness): a task is added and deleted, a second one is added, and
the third `AddTask` returns an id that neither of them has had. -/
theorem ids_fresh_before_overflow_witness :
    successfulAdds ([Op.add 0 "a" "", Op.delete 1] ++ [Op.add 1 "b" ""]) < 2 ^ 63 - 1 ∧
    ("c" : String) ≠ "" ∧
    (∀ k t,
      (run NewTaskManager ([Op.add 0 "a" "", Op.delete 1] ++ [Op.add 1 "b" ""])).tasks k =
        some t →
      t.ID = k ∧ 1 ≤ k ∧
        k < (run NewTaskManager ([Op.add 0 "a" "", Op.delete 1] ++ [Op.add 1 "b" ""])).nextID) ∧
    ∃ task,
      ((run NewTaskManager ([Op.add 0 "a" "", Op.delete 1] ++ [Op.add 1 "b" ""])).AddTask 2
        "c" "").2 = Except.ok task ∧
      task.ID = (run NewTaskManager ([Op.add 0 "a" "", Op.delete 1] ++ [Op.add 1 "b" ""])).nextID ∧
      (∀ k t,
        (run NewTaskManager ([Op.add 0 "a" "", Op.delete 1] ++ [Op.add 1 "b" ""])).tasks k =
          some t → t.ID ≠ task.ID) ∧
      (∀ k t, (run NewTaskManager [Op.add 0 "a" "", Op.delete 1]).tasks k = some t →
        t.ID ≠ task.ID) :=
  ⟨by decide, by decide,
    ids_fresh_before_overflow [Op.add 0 "a" "", Op.delete 1] [Op.add 1 "b" ""] 2 "c" ""
      (by decide) (by decide)⟩

end taskmanager

/-! ## Lemmas on the word-count expression -/

namespace repository

open squirrel

set_option maxRecDepth 8000

end repository

/-! ## The claim about the word-count clause -/

namespace repository

open squirrel

set_option maxRecDepth 8000

end repository

/-! ## Lemmas on the numbered placeholders of the compiled text -/

namespace repository

open squirrel

set_option maxRecDepth 8000

end repository

/-! ## The claim about placeholders and bound arguments -/

namespace repository

open squirrel

set_option maxRecDepth 8000

end repository

/-! ## The claims about validation and the order field -/

namespace repository

open squirrel

set_option maxRecDepth 8000

/-- C7 (as amended): `SearchPosts` validates nothing: for every filter value,
also with `Limit <= 0` or `Offset < 0`, the query is compiled without error,
the compiled query is sent to the store with its arguments, and the result is
exactly what the store returns, rows or error. -/
theorem SearchPosts_sends_query (up : Char → Char) (s : SearchService) (f : SearchFilters) :
    ∃ sqlStr args,
      SearchService.SearchPosts.ToSql up s f = Except.ok (sqlStr, args) ∧
      SearchService.SearchPosts up s f = s.db.selectPosts sqlStr args ∧
      (∀ posts, s.db.selectPosts sqlStr args = Except.ok posts →
        SearchService.SearchPosts up s f = Except.ok posts) ∧
      (∀ err, SearchService.SearchPosts up s f = Except.error err →
        s.db.selectPosts sqlStr args = Except.error err) := by
  have h : SearchService.SearchPosts.ToSql up s f =
      Except.ok (s.psql.PlaceholderFormat.ReplacePlaceholders postsSelect, []) := by
    obtain ⟨db, ⟨pf⟩⟩ := s
    rfl
  have heq : SearchService.SearchPosts up s f =
      s.db.selectPosts (s.psql.PlaceholderFormat.ReplacePlaceholders postsSelect) [] := by
    unfold SearchService.SearchPosts
    rw [h]
    show (match s.db.selectPosts (s.psql.PlaceholderFormat.ReplacePlaceholders postsSelect) []
      with
      | Except.error err => Except.error err
      | Except.ok posts => Except.ok posts) = _
    cases s.db.selectPosts (s.psql.PlaceholderFormat.ReplacePlaceholders postsSelect) [] <;> rfl
  refine ⟨_, _, h, heq, ?_, ?_⟩
  · intro posts hp
    rw [heq, hp]
  · intro err he
    rw [← heq, he]

/-- C8 (as amended): for every filter with a non-empty `OrderBy`, the ORDER
BY part of the builder that `BuildDynamicQuery` constructs is the caller's
`OrderBy`, verbatim, followed by a space and `DESC` (when the upper-cased
`OrderDir` is `DESC`) or `ASC` (otherwise), and the text compiled from the
builder has that ORDER BY section.  No allow-list is applied: the field
placed is the caller's string, so it belongs to title, created_at, updated_at
exactly when the caller's `OrderBy` does. -/
theorem order_field_verbatim (up : Char → Char) (s : SearchService) (f : SearchFilters)
    (h : f.OrderBy ≠ "") :
    ∃ dir, (dir = "ASC" ∨ dir = "DESC") ∧
      (dir = "DESC" ↔ strings.ToUpper up f.OrderDir = "DESC") ∧
      (BuildDynamicQuery.qb up s.postsBase f).OrderByParts =
        [Sqlizer.part (f.OrderBy ++ " " ++ dir) []] ∧
      (BuildDynamicQuery.qb up s.postsBase f).toSqlRaw =
        Except.ok
          (postsSelect ++ sectionText " WHERE " " AND " ((emittedClauses f).map Prod.fst) ++
            (" ORDER BY " ++ (f.OrderBy ++ " " ++ dir)) ++
            " LIMIT " ++ Nat.repr (uint64 f.Limit) ++ " OFFSET " ++ Nat.repr (uint64 f.Offset),
           (emittedClauses f).flatMap Prod.snd) ∧
      ∀ field : String,
        (BuildDynamicQuery.qb up s.postsBase f).OrderByParts =
            [Sqlizer.part (field ++ " " ++ dir) []] →
          field = f.OrderBy ∧ (field ∈ orderAllowList ↔ f.OrderBy ∈ orderAllowList) := by
  have hparts : (BuildDynamicQuery.qb up s.postsBase f).OrderByParts =
      [Sqlizer.part (f.OrderBy ++ " " ++
        (if strings.ToUpper up f.OrderDir = "DESC" then "DESC" else "ASC")) []] := by
    rw [qb_eq]
    simp [orderClause, h, SearchService.postsBase, StatementBuilderType.Select,
      SelectBuilder.setFrom]
  refine ⟨if strings.ToUpper up f.OrderDir = "DESC" then "DESC" else "ASC", ?_, ?_, hparts,
    ?_, ?_⟩
  · split <;> simp
  · split
    · simp [*]
    · rename_i hd
      simp only [hd, iff_false]
      decide
  · rw [constructed_toSqlRaw]
    simp [orderClause, h, sectionText, String.intercalate, String.intercalate.go]
  · intro field hf
    rw [hparts] at hf
    have h1 := congrArg String.data (Sqlizer.part.inj (List.cons.inj hf).1).1
    simp only [String.data_append] at h1
    have h2 : field = f.OrderBy := String.ext (List.append_cancel_right (List.append_cancel_right h1).symm)
    exact ⟨h2, by rw [h2]⟩

/-- C8 (witness of the amended claim): `OrderBy = "created_at"` with
`OrderDir = "desc"`. -/
theorem order_field_verbatim_witness :
    ("created_at" : String) ≠ "" ∧
    ∃ dir, (dir = "ASC" ∨ dir = "DESC") ∧
      (dir = "DESC" ↔ strings.ToUpper Char.toUpper "desc" = "DESC") ∧
      (BuildDynamicQuery.qb Char.toUpper (NewSearchService emptyStore).postsBase
        { Query := "", UserID := none, Published := none, MinWordCount := none,
          Limit := 10, Offset := 0, OrderBy := "created_at", OrderDir := "desc" }).OrderByParts =
        [Sqlizer.part ("created_at" ++ " " ++ dir) []] ∧
      (BuildDynamicQuery.qb Char.toUpper (NewSearchService emptyStore).postsBase
        { Query := "", UserID := none, Published := none, MinWordCount := none,
          Limit := 10, Offset := 0, OrderBy := "created_at", OrderDir := "desc" }).toSqlRaw =
        Except.ok
          (postsSelect ++ sectionText " WHERE " " AND "
              ((emittedClauses
                { Query := "", UserID := none, Published := none, MinWordCount := none,
                  Limit := 10, Offset := 0, OrderBy := "created_at",
                  OrderDir := "desc" }).map Prod.fst) ++
            (" ORDER BY " ++ ("created_at" ++ " " ++ dir)) ++
            " LIMIT " ++ Nat.repr (uint64 10) ++ " OFFSET " ++ Nat.repr (uint64 0),
           (emittedClauses
              { Query := "", UserID := none, Published := none, MinWordCount := none,
                Limit := 10, Offset := 0, OrderBy := "created_at",
                OrderDir := "desc" }).flatMap Prod.snd) ∧
      ∀ field : String,
        (BuildDynamicQuery.qb Char.toUpper (NewSearchService emptyStore).postsBase
          { Query := "", UserID := none, Published := none, MinWordCount := none,
            Limit := 10, Offset := 0, OrderBy := "created_at",
            OrderDir := "desc" }).OrderByParts = [Sqlizer.part (field ++ " " ++ dir) []] →
          field = "created_at" ∧ (field ∈ orderAllowList ↔ "created_at" ∈ orderAllowList) :=
  ⟨by decide, order_field_verbatim Char.toUpper (NewSearchService emptyStore)
    { Query := "", UserID := none, Published := none, MinWordCount := none,
      Limit := 10, Offset := 0, OrderBy := "created_at", OrderDir := "desc" } (by decide)⟩

end repository

/-! ## Lemmas on the number a query text ends with -/

namespace repository

open squirrel

set_option maxRecDepth 8000

theorem digitsValue_foldl (l : List Char) (acc : Nat) :
    l.foldl (fun acc c => 10 * acc + (c.toNat - '0'.toNat)) acc =
      acc * 10 ^ l.length + digitsValue l := by
  induction l generalizing acc with
  | nil => simp [digitsValue]
  | cons c l ih =>
    have h0 := ih (10 * 0 + (c.toNat - '0'.toNat))
    have h1 := ih (10 * acc + (c.toNat - '0'.toNat))
    simp only [digitsValue, List.foldl_cons, List.length_cons] at h0 h1 ⊢
    rw [h1, h0]
    ring

theorem digitsValue_cons (c : Char) (l : List Char) :
    digitsValue (c :: l) = (c.toNat - '0'.toNat) * 10 ^ l.length + digitsValue l := by
  have h := digitsValue_foldl l (10 * 0 + (c.toNat - '0'.toNat))
  simp only [digitsValue, List.foldl_cons] at h ⊢
  rw [h]
  simp

theorem digitChar_value (d : Nat) (h : d < 10) : (Nat.digitChar d).toNat - '0'.toNat = d := by
  interval_cases d <;> rfl

theorem digitsValue_toDigitsCore (fuel : Nat) :
    ∀ (n : Nat) (ds : List Char), n < fuel →
      digitsValue (Nat.toDigitsCore 10 fuel n ds) = n * 10 ^ ds.length + digitsValue ds := by
  induction fuel with
  | zero => intro n ds h; omega
  | succ fuel ih =>
    intro n ds h
    have hd := digitChar_value (n % 10) (Nat.mod_lt _ (by decide))
    simp only [Nat.toDigitsCore]
    split
    · rename_i h0
      rw [digitsValue_cons, hd]
      have : n % 10 = n := by omega
      rw [this]
    · rename_i h0
      rw [ih (n / 10) _ (by omega), digitsValue_cons, hd, List.length_cons, pow_succ]
      have h2 : n = 10 * (n / 10) + n % 10 := by omega
      generalize 10 ^ ds.length = p at *
      generalize digitsValue ds = v at *
      generalize n / 10 = q at *
      generalize n % 10 = r at *
      subst h2
      ring

theorem digitsValue_repr (n : Nat) : digitsValue (Nat.repr n).data = n := by
  have h := digitsValue_toDigitsCore (n + 1) n [] (by omega)
  simpa [Nat.repr, Nat.toDigits, List.asString, digitsValue] using h

theorem repr_all_digits (n : Nat) : ∀ c ∈ (Nat.repr n).data.reverse, Char.isDigit c = true := by
  intro c hc
  have h := repr_mem_digits n c (List.mem_reverse.mp hc)
  have hall : ∀ d ∈ ("0123456789" : String).data, Char.isDigit d = true := by decide
  exact hall c h

/-- The number that `text ++ Nat.repr n` ends with is `n`, when `text` does
not end in a digit. -/
theorem trailingNumber_append_repr (text : String) (n : Nat)
    (h : text.data.reverse.takeWhile Char.isDigit = []) :
    trailingNumber (text ++ Nat.repr n) = n := by
  unfold trailingNumber
  rw [String.data_append, List.reverse_append,
    List.takeWhile_append_of_pos (repr_all_digits n), h, List.append_nil, List.reverse_reverse,
    digitsValue_repr]

end repository

/-! ## The claims about the query and the limit of `GetTopUsers` -/

namespace repository

open squirrel

set_option maxRecDepth 8000

/-- C12 (as amended): for every limit, the query of `GetTopUsers` joins
`users u` to `posts p` by `LEFT JOIN posts p ON u.id = p.user_id` and by no
other join, groups by `u.id, u.name, u.email`, orders by `post_count DESC`,
has no WHERE clause, has no inner join and binds no arguments; its text ends
in `LIMIT` followed by `uint64(limit)`, which for every limit from 0 up to
the largest `int` is `limit` itself. -/
theorem GetTopUsers_query_shape (s : SearchService) (limit : Int) :
    SearchService.GetTopUsers.ToSql s limit =
      Except.ok
        ("SELECT u.id, u.name, u.email, COUNT(p.id) AS post_count, " ++
          "COUNT(CASE WHEN p.published = true THEN 1 END) AS published_count, " ++
          "MAX(p.created_at) AS last_post_date " ++
          "FROM users u LEFT JOIN posts p ON u.id = p.user_id " ++
          "GROUP BY u.id, u.name, u.email ORDER BY post_count DESC LIMIT " ++
          Nat.repr (uint64 limit), []) ∧
    (0 ≤ limit → limit < 2 ^ 63 →
      uint64 limit = limit.toNat ∧
      SearchService.GetTopUsers.ToSql s limit =
        Except.ok (topUsersText ++ Nat.repr limit.toNat, [])) ∧
    (s.topUsersBuilder limit).Joins = [Sqlizer.part "LEFT JOIN posts p ON u.id = p.user_id" []] ∧
    (s.topUsersBuilder limit).GroupBys = ["u.id", "u.name", "u.email"] ∧
    (s.topUsersBuilder limit).OrderByParts = [Sqlizer.part "post_count DESC" []] ∧
    (s.topUsersBuilder limit).WhereParts = [] ∧
    (s.topUsersBuilder limit).Limit = Nat.repr (uint64 limit) ∧
    ¬ containsText (topUsersText ++ Nat.repr (uint64 limit)) "WHERE" ∧
    ¬ containsText (topUsersText ++ Nat.repr (uint64 limit)) "INNER" := by
  refine ⟨?_, ?_, rfl, rfl, rfl, rfl, rfl, ?_, ?_⟩
  · rw [GetTopUsers_toSql_eq]
    rfl
  · intro h0 h1
    refine ⟨uint64_of_nonneg limit h0 h1, ?_⟩
    rw [GetTopUsers_toSql_eq, uint64_of_nonneg limit h0 h1]
  · exact not_contains_append_repr _ _ _ (by decide) (by decide) (by decide)
  · exact not_contains_append_repr _ _ _ (by decide) (by decide) (by decide)

/-- C22 (counterexample): over a store that reads the LIMIT as SQLite does,
`GetTopUsers` with `limit = -1` returns the error of the store: the compiled
text ends in `LIMIT 18446744073709551615`, a literal above `2^63 - 1`, which
the store rejects with `datatype mismatch`. -/
theorem GetTopUsers_negative_limit_rejected :
    SearchService.GetTopUsers.ToSql (NewSearchService emptyStore) (-1) =
      Except.ok (topUsersText ++ "18446744073709551615", []) ∧
    trailingNumber (topUsersText ++ "18446744073709551615") = 2 ^ 64 - 1 ∧
    selectCheckingLimit (topUsersText ++ "18446744073709551615") [] =
      Except.error "datatype mismatch" ∧
    SearchService.GetTopUsers selectCheckingLimit (NewSearchService emptyStore) (-1) =
      Except.error "datatype mismatch" := by
  refine ⟨rfl, by decide, rfl, rfl⟩

/-- C22 (as amended): `GetTopUsers` converts its limit with `uint64` and
checks nothing: for every negative limit the text of the compiled query ends
in `LIMIT 2^64 + limit` (`LIMIT 18446744073709551615` for -1), for limit 0 it
ends in `LIMIT 0`; the conversion and the compilation produce no error and
the result of `GetTopUsers` is whatever the store returns for that query,
rows or error.  Over a store that reads the LIMIT as SQLite does, every
negative limit is answered with the error `datatype mismatch` and limit 0
with no rows. -/
theorem GetTopUsers_limit_unchecked {Row : Type}
    (selectRows : String → List Value → Except String (List Row)) (s : SearchService)
    (limit : Int) (hneg : limit < 0) (hmin : -2 ^ 63 ≤ limit) :
    SearchService.GetTopUsers.ToSql s limit =
      Except.ok (topUsersText ++ Nat.repr (2 ^ 64 + limit).toNat, []) ∧
    SearchService.GetTopUsers.ToSql s (-1) =
      Except.ok (topUsersText ++ "18446744073709551615", []) ∧
    SearchService.GetTopUsers.ToSql s 0 = Except.ok (topUsersText ++ "0", []) ∧
    SearchService.GetTopUsers selectRows s limit =
      selectRows (topUsersText ++ Nat.repr (2 ^ 64 + limit).toNat) [] ∧
    SearchService.GetTopUsers selectRows s 0 = selectRows (topUsersText ++ "0") [] ∧
    SearchService.GetTopUsers selectCheckingLimit s limit = Except.error "datatype mismatch" ∧
    SearchService.GetTopUsers selectCheckingLimit s 0 = Except.ok [] := by
  have hsel : ∀ {R : Type} (sel : String → List Value → Except String (List R)) (text : String),
      (match sel text [] with
        | Except.error err => Except.error err
        | Except.ok res => Except.ok res) = sel text [] := by
    intro R sel text
    cases sel text [] <;> rfl
  have hl := GetTopUsers_toSql_eq s limit
  rw [uint64_of_neg limit hneg hmin] at hl
  have h1 := GetTopUsers_toSql_eq s (-1)
  have h0 := GetTopUsers_toSql_eq s 0
  have hrun : ∀ {R : Type} (sel : String → List Value → Except String (List R)),
      SearchService.GetTopUsers sel s limit =
        sel (topUsersText ++ Nat.repr (2 ^ 64 + limit).toNat) [] := by
    intro R sel
    unfold SearchService.GetTopUsers
    rw [hl]
    exact hsel sel _
  have hrun0 : ∀ {R : Type} (sel : String → List Value → Except String (List R)),
      SearchService.GetTopUsers sel s 0 = sel (topUsersText ++ "0") [] := by
    intro R sel
    unfold SearchService.GetTopUsers
    rw [h0]
    exact hsel sel _
  refine ⟨hl, h1, h0, hrun selectRows, hrun0 selectRows, ?_, ?_⟩
  · rw [hrun selectCheckingLimit]
    unfold selectCheckingLimit
    rw [trailingNumber_append_repr _ _ (by decide)]
    have hbig : (2 ^ 64 + limit).toNat > 2 ^ 63 - 1 := by omega
    rw [if_pos hbig]
  · rw [hrun0 selectCheckingLimit]
    rfl

/-- C22 (witness of the amended claim): `limit = -5` over a store that
answers with no rows. -/
theorem GetTopUsers_limit_unchecked_witness :
    (-5 : Int) < 0 ∧ (-2 ^ 63 : Int) ≤ -5 ∧
    SearchService.GetTopUsers.ToSql (NewSearchService emptyStore) (-5) =
      Except.ok (topUsersText ++ Nat.repr (2 ^ 64 + (-5 : Int)).toNat, []) ∧
    SearchService.GetTopUsers.ToSql (NewSearchService emptyStore) (-1) =
      Except.ok (topUsersText ++ "18446744073709551615", []) ∧
    SearchService.GetTopUsers.ToSql (NewSearchService emptyStore) 0 =
      Except.ok (topUsersText ++ "0", []) ∧
    SearchService.GetTopUsers selectNoRows (NewSearchService emptyStore) (-5) =
      selectNoRows (topUsersText ++ Nat.repr (2 ^ 64 + (-5 : Int)).toNat) [] ∧
    SearchService.GetTopUsers selectNoRows (NewSearchService emptyStore) 0 =
      selectNoRows (topUsersText ++ "0") [] ∧
    SearchService.GetTopUsers selectCheckingLimit (NewSearchService emptyStore) (-5) =
      Except.error "datatype mismatch" ∧
    SearchService.GetTopUsers selectCheckingLimit (NewSearchService emptyStore) 0 =
      Except.ok [] :=
  ⟨by decide, by decide,
    GetTopUsers_limit_unchecked selectNoRows (NewSearchService emptyStore) (-5) (by decide)
      (by decide)⟩

end repository
